import Mathlib

/-!
# ethashproof relayer: the proof assembly pipeline of `cmd/relayer/main.go`

A shallow embedding of `main` over its collaborators.  Every collaborator that
touches the outside world is a state transformer on an abstract world `σ`; a run
of `main` yields the calls it made (with their results), what it printed, and
the final world.
-/

namespace Relayer

/-! ## Numeric encoding (`hexutil.EncodeBig`, `hexutil.Encode`) -/

/-- Go `big.Int.Text(16)` on a non-negative value: lowercase hexadecimal digits,
most significant first, no leading zeros (`"0"` for zero). -/
def Text16 (n : Nat) : List Char := Nat.toDigits 16 n

/-- Go `hexutil.EncodeBig`: `0x0` for zero, `0x` + hex digits for a positive value,
`-0x` + hex digits of the magnitude for a negative one. -/
def EncodeBig (bigint : Int) : String :=
  if bigint = 0 then "0x0"
  else if 0 < bigint then "0x" ++ String.mk (Text16 bigint.toNat)
  else "-0x" ++ String.mk (Text16 bigint.natAbs)

/-- Value of one hexadecimal digit character (either case); `none` for another character. -/
def hexVal (ch : Char) : Option Nat :=
  if '0' ≤ ch ∧ ch ≤ '9' then some (ch.toNat - '0'.toNat)
  else if 'a' ≤ ch ∧ ch ≤ 'f' then some (ch.toNat - 'a'.toNat + 10)
  else if 'A' ≤ ch ∧ ch ≤ 'F' then some (ch.toNat - 'A'.toNat + 10)
  else none

/-- Big-endian value of a run of hexadecimal digits, starting from `acc`. -/
def decodeDigits : List Char → Nat → Option Nat
  | [], acc => some acc
  | ch :: cs, acc =>
    match hexVal ch with
    | some d => decodeDigits cs (acc * 16 + d)
    | none => none

/-- Decoding an entry of `elements` or `merkle_proofs` as the spec words it: the
`0x` prefix followed by at least one hexadecimal digit, read as a big-endian
unsigned integer. -/
def DecodeBig (s : String) : Option Nat :=
  match s.data with
  | '0' :: 'x' :: d :: ds => decodeDigits (d :: ds) 0
  | _ => none

/-- The lowercase hexadecimal digit characters. -/
def lowerHex : List Char := "0123456789abcdef".data

/-- Two lowercase hexadecimal digits of one byte (Go `hex.EncodeToString`). -/
def hexByte (b : Nat) : List Char :=
  [Nat.digitChar (b / 16 % 16), Nat.digitChar (b % 16)]

/-- Go `hexutil.Encode`: `0x` followed by two hex digits per byte. -/
def hexutilEncode (b : List Nat) : String :=
  "0x" ++ String.mk (b.flatMap hexByte)

/-! ## Argument parsing (`strconv.Atoi`, 64-bit `int`) -/

/-- The two failure kinds of `strconv.Atoi` (`ErrSyntax`, `ErrRange`). -/
inductive NumError
  | syntaxErr
  | rangeErr
  deriving DecidableEq, Repr

deriving instance DecidableEq for Except

/-- The digit loop of `strconv.ParseUint` at base 10 and 64 bits: a character that
is not a decimal digit is a syntax error, a value past `2^64 - 1` a range error,
whichever comes first. -/
def parseUintLoop : List Char → Nat → Except NumError Nat
  | [], n => .ok n
  | ch :: cs, n =>
    if ch.isDigit then
      let n1 := n * 10 + (ch.toNat - '0'.toNat)
      if 2 ^ 64 ≤ n1 then .error .rangeErr else parseUintLoop cs n1
    else .error .syntaxErr

/-- The sign handling of `strconv.Atoi`: a leading `-` or `+` is taken off. -/
def splitSign : List Char → Bool × List Char
  | '-' :: r => (true, r)
  | '+' :: r => (false, r)
  | r => (false, r)

/-- Go `strconv.Atoi` where `int` has 64 bits: an optional `+` or `-`, then at
least one decimal digit, the value within `[-2^63, 2^63 - 1]`. -/
def Atoi (s : String) : Except NumError Int :=
  let body := splitSign s.data
  if body.2 = [] then .error .syntaxErr
  else
    match parseUintLoop body.2 0 with
    | .error e => .error e
    | .ok un =>
      if body.1 then
        if 2 ^ 63 < un then .error .rangeErr else .ok (-(un : Int))
      else
        if 2 ^ 63 ≤ un then .error .rangeErr else .ok (un : Int)

/-- Value of a run of decimal digits. -/
def decimalValue (ds : List Char) : Nat :=
  ds.foldl (fun n ch => n * 10 + (ch.toNat - '0'.toNat)) 0

/-- The string `a` is a decimal integer literal of value `n`: an optional `+` or
`-` followed by at least one decimal digit. -/
def IsDecimalLiteral (a : String) (n : Int) : Prop :=
  ∃ ds : List Char, ds ≠ [] ∧ (∀ ch ∈ ds, ch.isDigit = true) ∧
    ((a.data = ds ∨ a.data = '+' :: ds) ∧ n = (decimalValue ds : Int) ∨
      a.data = '-' :: ds ∧ n = -(decimalValue ds : Int))

/-! ## Data model -/

/-- Byte strings (`[]byte`, fixed-size hashes, dataset words). -/
abbrev Bytes := List Nat

/-- The record printed as JSON (`type Output struct`). -/
structure Output where
  HeaderRLP : String
  MerkleRoot : String
  Elements : List String
  MerkleProofs : List String
  ProofLength : Nat
  deriving DecidableEq, Repr

/-- The fields of `types.Header` the pipeline reads: `Number` (a non-negative
`*big.Int`, of any size), `Nonce` (through `Nonce.Uint64()`), and the remaining
content. -/
structure Header where
  Number : Nat
  Nonce : Nat
  rest : Bytes
  deriving DecidableEq, Repr

/-- The per-epoch commitment returned by `ethashproof.LoadCache`. -/
structure Cache where
  RootHash : Bytes
  ProofLength : Nat
  rest : List Bytes
  deriving DecidableEq, Repr

/-- A Go `(value, error)` result whose value is unused when the error is set. -/
inductive Res (α : Type)
  | ok (a : α)
  | err (msg : String)
  deriving DecidableEq, Repr

/-- One collaborator call made by a run, with its arguments and its result. -/
inductive Event
  | userCurrent (res : Res String)
  | MkdirAll (path : String) (perm : Nat) (res : Option String)
  | HeaderByNumber (number : Int) (res : Res Header)
  | LoadCache (epoch : Int) (cacheDir : String) (res : Res Cache)
  | CalculateDatasetMerkleRoot (epoch : Nat) (saveToCache : Bool)
      (dataDir cacheDir : String) (res : Res Bytes)
  | GetVerificationIndices (blockno : Nat) (sealHash : Bytes) (nonce : Nat) (res : List Nat)
  | RLPHeader (header : Header) (res : Bytes × Option String)
  | CalculateProof (blockno : Nat) (index : Nat) (cache : Cache) (dataDir : String)
      (res : Res (Bytes × List Bytes))
  deriving DecidableEq, Repr

/-- What a run writes: a `fmt.Printf` message, or the JSON rendering of the record
(`fmt.Printf("%s\n", outputJson)`). -/
inductive Printed
  | text (s : String)
  | json (o : Output)
  deriving DecidableEq, Repr

/-- The collaborators of `main`.  Those that read or change the outside world are
state transformers on the world `σ`; conversions are plain functions. -/
structure Collaborators (σ : Type) where
  userCurrent : σ → Res String × σ
  filepathJoin : String → String → String
  MkdirAll : String → Nat → σ → Option String × σ
  HeaderByNumber : Int → σ → Res Header × σ
  LoadCache : Int → String → σ → Res Cache × σ
  CalculateDatasetMerkleRoot : Nat → Bool → String → String → σ → Res Bytes × σ
  SealHash : Header → Bytes
  GetVerificationIndices : Nat → Bytes → Nat → σ → List Nat × σ
  RLPHeader : Header → Bytes × Option String
  Hex : Bytes → String
  CalculateProof : Nat → Nat → Cache → String → σ → Res (Bytes × List Bytes) × σ
  ToUint256Array : Bytes → List Int
  HashesToBranchesArray : List Bytes → List Bytes
  Big : Bytes → Int
  Quote : String → String

/-- Observable outcome of running a piece of the program from some world: the
collaborator calls made, what was printed, the message of a `log.Fatal` if one
ended the process, the world afterwards, and the value computed; `value = none`
means the process has ended (`return` from `main`, or `log.Fatal`). -/
structure Run (σ α : Type) where
  trace : List Event
  stdout : List Printed
  fatal : Option String
  state : σ
  value : Option α

/-- A piece of the program: from a world to its outcome. -/
structure Prog (σ α : Type) where
  run : σ → Run σ α

/-- Outcome `r` preceded by the calls `t` and the output `o`. -/
def Run.prepend {σ α : Type} (t : List Event) (o : List Printed) (r : Run σ α) : Run σ α :=
  { r with trace := t ++ r.trace, stdout := o ++ r.stdout }

/-- Doing nothing, with result `a`. -/
def Prog.pure {σ α : Type} (a : α) : Prog σ α :=
  ⟨fun s => { trace := [], stdout := [], fatal := none, state := s, value := some a }⟩

/-- Sequencing: `f` runs only if `m` has not ended the process. -/
def Prog.bind {σ α β : Type} (m : Prog σ α) (f : α → Prog σ β) : Prog σ β :=
  ⟨fun s =>
    match (m.run s).value with
    | none =>
      { trace := (m.run s).trace, stdout := (m.run s).stdout, fatal := (m.run s).fatal,
        state := (m.run s).state, value := none }
    | some a => ((f a).run (m.run s).state).prepend (m.run s).trace (m.run s).stdout⟩

instance {σ : Type} : Monad (Prog σ) where
  pure := Prog.pure
  bind := Prog.bind

/-- Go `fmt.Printf` of an already formatted message. -/
def printf {σ : Type} (msg : String) : Prog σ Unit :=
  ⟨fun s => { trace := [], stdout := [.text msg], fatal := none, state := s, value := some () }⟩

/-- Go `fmt.Printf("%s\n", outputJson)` of the marshalled record. -/
def printJson {σ : Type} (o : Output) : Prog σ Unit :=
  ⟨fun s => { trace := [], stdout := [.json o], fatal := none, state := s, value := some () }⟩

/-- Go `return` from `main`. -/
def stop {σ α : Type} : Prog σ α :=
  ⟨fun s => { trace := [], stdout := [], fatal := none, state := s, value := none }⟩

/-- Go `log.Fatal(err)`: the process ends. -/
def logFatal {σ α : Type} (e : String) : Prog σ α :=
  ⟨fun s => { trace := [], stdout := [], fatal := some e, state := s, value := none }⟩

/-- A collaborator call `f`, recorded in the trace as `ev result`. -/
def call {σ ρ : Type} (f : σ → ρ × σ) (ev : ρ → Event) : Prog σ ρ :=
  ⟨fun s => { trace := [ev (f s).1], stdout := [], fatal := none, state := (f s).2,
              value := some (f s).1 }⟩

/-! ## The program -/

/-- Go `big.Int.Uint64`: the low 64 bits. -/
def Uint64 (x : Nat) : Nat := x % 2 ^ 64

/-- Go `int(x)` for a `uint64` `x` where `int` has 64 bits (two's complement). -/
def toInt (x : Nat) : Int :=
  if x % 2 ^ 64 < 2 ^ 63 then ((x % 2 ^ 64 : Nat) : Int) else ((x % 2 ^ 64 : Nat) : Int) - 2 ^ 64

/-- `err.Error()` of a `*strconv.NumError` from `Atoi`. -/
def NumError.Error (quote : String → String) (arg : String) : NumError → String
  | .syntaxErr => "strconv.Atoi: parsing " ++ quote arg ++ ": invalid syntax"
  | .rangeErr => "strconv.Atoi: parsing " ++ quote arg ++ ": value out of range"

/-- `getHomeDir` (lines 28-34): `user.Current()`, `log.Fatal` on error. -/
def getHomeDir {σ : Type} (c : Collaborators σ) : Prog σ String := do
  match ← call c.userCurrent Event.userCurrent with
  | .err e => logFatal e
  | .ok home => pure home

/-- Lines 37-73 of `main`: argument checks, the two directories, the header fetch.
Yields the header, `dataDir` and `cacheDir`. -/
def setup {σ : Type} (c : Collaborators σ) (args : List String) :
    Prog σ (Header × String × String) := do
  if args.length < 2 then
    printf "Block number param is missing. Please run ./relayer <blocknumber> instead.\n"
    stop
  if args.length > 2 then
    printf ("Please pass only 1 param as a block number. " ++
      "Please run ./relayer <blocknumber> instead.\n")
    stop
  let number ← match Atoi (args.getD 1 "") with
    | .error e => do
      printf ("Please pass a number as a block number. " ++
        "Please run ./relayer <integer> instead.\n")
      printf ("Error: " ++ e.Error c.Quote (args.getD 1 "") ++ "\n")
      stop
    | .ok number => pure number
  let dataDir := c.filepathJoin (← getHomeDir c) ".ethash"
  match ← call (c.MkdirAll dataDir 0o755) (Event.MkdirAll dataDir 0o755) with
  | some e =>
    printf ("Error: " ++ e ++ "\n")
    stop
  | none => pure ()
  let cacheDir := c.filepathJoin (← getHomeDir c) ".ethashproof"
  match ← call (c.MkdirAll cacheDir 0o755) (Event.MkdirAll cacheDir 0o755) with
  | some e =>
    printf ("Error: " ++ e ++ "\n")
    stop
  | none => pure ()
  printf "Getting block header\n"
  match ← call (c.HeaderByNumber number) (Event.HeaderByNumber number) with
  | .err e =>
    printf ("Getting header failed: " ++ e ++ "\n")
    stop
  | .ok header => pure (header, dataDir, cacheDir)

/-- Lines 77-90 of `main`: load the commitment, and on failure rebuild it and load
once more. -/
def resolveCache {σ : Type} (c : Collaborators σ) (epoch : Nat) (dataDir cacheDir : String) :
    Prog σ Cache := do
  match ← call (c.LoadCache (toInt epoch) cacheDir) (Event.LoadCache (toInt epoch) cacheDir) with
  | .ok cache => pure cache
  | .err _ =>
    printf "Cache is missing, calculate dataset merkle tree to create the cache first...\n"
    match ← call (c.CalculateDatasetMerkleRoot epoch true dataDir cacheDir)
        (Event.CalculateDatasetMerkleRoot epoch true dataDir cacheDir) with
    | .err e =>
      printf ("Creating cache failed: " ++ e ++ "\n")
      stop
    | .ok _ =>
      match ← call (c.LoadCache (toInt epoch) cacheDir)
          (Event.LoadCache (toInt epoch) cacheDir) with
      | .err e =>
        printf ("Getting cache failed after trying to creat it: " ++ e ++ ". Abort.\n")
        stop
      | .ok cache => pure cache

/-- Lines 113-130 of `main`: the loop over the verification indices, filling
`output.Elements` and `output.MerkleProofs`. -/
def proofLoop {σ : Type} (c : Collaborators σ) (blockno : Nat) (cache : Cache)
    (dataDir : String) : List Nat → Output → Prog σ Output
  | [], output => pure output
  | index :: rest, output => do
    match ← call (c.CalculateProof blockno index cache dataDir)
        (Event.CalculateProof blockno index cache dataDir) with
    | .err e =>
      printf ("calculating the proofs failed for index: " ++ toString index ++
        ", error: " ++ e ++ "\n")
      stop
    | .ok (element, proof) =>
      let es := c.ToUint256Array element
      let output1 : Output :=
        { output with Elements := es.foldl (fun acc e => acc ++ [EncodeBig e]) output.Elements }
      let allProofs := (c.HashesToBranchesArray proof).foldl (fun acc be => acc ++ [c.Big be]) []
      let output2 : Output :=
        { output1 with
          MerkleProofs := allProofs.foldl (fun acc pr => acc ++ [EncodeBig pr]) output1.MerkleProofs }
      proofLoop c blockno cache dataDir rest output2

/-- The record before the loop fills it (lines 105-111). -/
def initialOutput {σ : Type} (c : Collaborators σ) (rlpheader : Bytes) (cache : Cache) : Output :=
  { HeaderRLP := hexutilEncode rlpheader
    MerkleRoot := c.Hex cache.RootHash
    Elements := []
    MerkleProofs := []
    ProofLength := cache.ProofLength }

/-- Lines 75-111 of `main` after the header fetch: the commitment, the indices, the
header serialization and the initial record.  Yields `blockno`, the indices, the
commitment and the record to fill. -/
def assemble {σ : Type} (c : Collaborators σ) (header : Header) (dataDir cacheDir : String) :
    Prog σ (Nat × List Nat × Cache × Output) := do
  let blockno := Uint64 header.Number
  let epoch := blockno / 30000
  let cache ← resolveCache c epoch dataDir cacheDir
  let indices ← call (c.GetVerificationIndices blockno (c.SealHash header) header.Nonce)
    (Event.GetVerificationIndices blockno (c.SealHash header) header.Nonce)
  printf ("Proof length: " ++ toString cache.ProofLength ++ "\n")
  let rlp ← call (fun s => (c.RLPHeader header, s)) (Event.RLPHeader header)
  match rlp.2 with
  | some e => printf ("Can't rlp encode the header: " ++ e ++ "\n")
  | none => pure ()
  let output := initialOutput c rlp.1 cache
  pure (blockno, indices, cache, output)

/-- Lines 37-111 of `main`: everything before the loop. -/
def beforeLoop {σ : Type} (c : Collaborators σ) (args : List String) :
    Prog σ (String × Nat × List Nat × Cache × Output) := do
  let (header, dataDir, cacheDir) ← setup c args
  let (blockno, indices, cache, output) ← assemble c header dataDir cacheDir
  pure (dataDir, blockno, indices, cache, output)

/-- The program `main`, run with `os.Args = args`. -/
def main {σ : Type} (c : Collaborators σ) (args : List String) : Prog σ Unit := do
  let (dataDir, blockno, indices, cache, output) ← beforeLoop c args
  let output ← proofLoop c blockno cache dataDir indices output
  printf "Json output:\n\n"
  printJson output

/-- The record a run emitted, if any. -/
def emitted : List Printed → Option Output
  | [] => none
  | .json o :: _ => some o
  | .text _ :: rest => emitted rest

/-! ## A deterministic fake of the collaborators -/

/-- The world of the fake: whether the epoch's commitment is persisted. -/
structure FakeWorld where
  persisted : Bool
  deriving DecidableEq, Repr

/-- Behaviour of the fake collaborators. -/
structure Fake where
  headerNumber : Nat
  indices : List Nat
  badIndex : Option Nat
  rebuildWorks : Bool
  rebuildPersists : Bool
  proofLength : Nat
  rlpFails : Bool
  deriving DecidableEq, Repr

/-- Big-endian value of a byte string (Go `new(big.Int).SetBytes`). -/
def bigEndian (b : Bytes) : Nat := b.foldl (fun acc x => acc * 256 + x % 256) 0

/-- The fake commitment: root hash `0x00..01` (32 bytes). -/
def fakeCache (f : Fake) : Cache :=
  { RootHash := List.replicate 31 0 ++ [1], ProofLength := f.proofLength, rest := [] }

/-- Fake collaborators: the header has number `f.headerNumber`; the commitment loads
once persisted; an element is four integers; a proof is `ProofLength` hashes, one
branch each; retrieval fails exactly at `f.badIndex`. -/
def fake (f : Fake) : Collaborators FakeWorld where
  userCurrent := fun w => (.ok "/home/u", w)
  filepathJoin := fun a b => a ++ "/" ++ b
  MkdirAll := fun _ _ w => (none, w)
  HeaderByNumber := fun _ w => (.ok { Number := f.headerNumber, Nonce := 7, rest := [] }, w)
  LoadCache := fun _ _ w =>
    (if w.persisted then .ok (fakeCache f) else .err "no cache", w)
  CalculateDatasetMerkleRoot := fun _ _ _ _ w =>
    if f.rebuildWorks then (.ok (fakeCache f).RootHash, { persisted := f.rebuildPersists })
    else (.err "disk full", w)
  SealHash := fun _ => [0]
  GetVerificationIndices := fun _ _ _ w => (f.indices, w)
  RLPHeader := fun h => if f.rlpFails then ([], some "rlp") else ([h.Number % 256], none)
  Hex := hexutilEncode
  CalculateProof := fun _ index k _ w =>
    (if some index = f.badIndex then .err "boom"
     else .ok ([index % 256, 1, 2, 3], List.replicate k.ProofLength [index % 256 + 1]), w)
  ToUint256Array := fun e => e.map (fun x => (x : Int))
  HashesToBranchesArray := fun p => p
  Big := fun b => (bigEndian b : Int)
  Quote := fun a => "\"" ++ a ++ "\""

/-- The spec's end-to-end example: block `300000`, two indices, `ProofLength = 24`. -/
def exampleFake : Fake :=
  { headerNumber := 300000, indices := [5, 9], badIndex := none, rebuildWorks := true,
    rebuildPersists := true, proofLength := 24, rlpFails := false }

/-- The record the example run emits. -/
def exampleRecord : Output :=
  { HeaderRLP := "0xe0"
    MerkleRoot := "0x0000000000000000000000000000000000000000000000000000000000000001"
    Elements := ["0x5", "0x1", "0x2", "0x3", "0x9", "0x1", "0x2", "0x3"]
    MerkleProofs := List.replicate 24 "0x6" ++ List.replicate 24 "0xa"
    ProofLength := 24 }

/-- A small fake: two indices, `ProofLength = 3`. -/
def smallFake : Fake :=
  { headerNumber := 300000, indices := [5, 9], badIndex := none, rebuildWorks := true,
    rebuildPersists := true, proofLength := 3, rlpFails := false }

/-- The record the small run emits. -/
def smallRecord : Output :=
  { HeaderRLP := "0xe0"
    MerkleRoot := "0x0000000000000000000000000000000000000000000000000000000000000001"
    Elements := ["0x5", "0x1", "0x2", "0x3", "0x9", "0x1", "0x2", "0x3"]
    MerkleProofs := ["0x6", "0x6", "0x6", "0xa", "0xa", "0xa"]
    ProofLength := 3 }

/-- A fake with five indices whose third retrieval fails. -/
def failingFake : Fake :=
  { headerNumber := 300000, indices := [11, 12, 13, 14, 15], badIndex := some 13,
    rebuildWorks := true, rebuildPersists := true, proofLength := 2, rlpFails := false }

/-! ## Reading a trace -/

/-- One `CalculateProof` call: its arguments and its result. -/
structure ProofCall where
  blockno : Nat
  index : Nat
  cache : Cache
  dataDir : String
  res : Res (Bytes × List Bytes)
  deriving DecidableEq, Repr

/-- The `CalculateProof` call of an event, if it is one. -/
def Event.proofCall? : Event → Option ProofCall
  | .CalculateProof b i k d r => some ⟨b, i, k, d, r⟩
  | _ => none

/-- Index, element and proof of a successful `CalculateProof` call. -/
def Event.proofOk? : Event → Option (Nat × Bytes × List Bytes)
  | .CalculateProof _ i _ _ (.ok r) => some (i, r)
  | _ => none

/-- Result of a `LoadCache` call. -/
def Event.load? : Event → Option (Res Cache)
  | .LoadCache _ _ r => some r
  | _ => none

/-- Result of a `CalculateDatasetMerkleRoot` call. -/
def Event.rebuild? : Event → Option (Res Bytes)
  | .CalculateDatasetMerkleRoot _ _ _ _ r => some r
  | _ => none

/-- The epoch argument of a `LoadCache` or `CalculateDatasetMerkleRoot` call. -/
def Event.epoch? : Event → Option Int
  | .LoadCache e _ _ => some e
  | .CalculateDatasetMerkleRoot e _ _ _ _ => some (e : Int)
  | _ => none

/-- The header a successful `HeaderByNumber` call returned. -/
def Event.header? : Event → Option Header
  | .HeaderByNumber _ (.ok h) => some h
  | _ => none

/-- The list a `GetVerificationIndices` call returned. -/
def Event.indices? : Event → Option (List Nat)
  | .GetVerificationIndices _ _ _ r => some r
  | _ => none

/-- All `CalculateProof` calls of a trace, in order. -/
def proofCalls (t : List Event) : List ProofCall := t.filterMap Event.proofCall?

/-- The successful `CalculateProof` calls of a trace, in order. -/
def proofOks (t : List Event) : List (Nat × Bytes × List Bytes) := t.filterMap Event.proofOk?

/-- The results of the `LoadCache` calls of a trace, in order. -/
def loads (t : List Event) : List (Res Cache) := t.filterMap Event.load?

/-- The results of the rebuild calls of a trace, in order. -/
def rebuilds (t : List Event) : List (Res Bytes) := t.filterMap Event.rebuild?

/-- The epochs requested from the cache and the rebuild, in order. -/
def requestedEpochs (t : List Event) : List Int := t.filterMap Event.epoch?

/-- The headers fetched by a trace. -/
def fetchedHeaders (t : List Event) : List Header := t.filterMap Event.header?

/-- The verification index lists obtained by a trace. -/
def fetchedIndices (t : List Event) : List (List Nat) := t.filterMap Event.indices?

/-- The encoded integers one element contributes to `elements`. -/
def elementBlock {σ : Type} (c : Collaborators σ) (element : Bytes) : List String :=
  (c.ToUint256Array element).map EncodeBig

/-- The encoded integers one inclusion proof contributes to `merkle_proofs`. -/
def proofBlock {σ : Type} (c : Collaborators σ) (proof : List Bytes) : List String :=
  (c.HashesToBranchesArray proof).map (fun be => EncodeBig (c.Big be))

/-- An event of the start of `main`: home directory, directory creation, header fetch. -/
def Event.isSetup : Event → Prop
  | .userCurrent _ => True
  | .MkdirAll _ _ _ => True
  | .HeaderByNumber _ _ => True
  | _ => False

/-- A printed item is a plain message. -/
def Printed.isText : Printed → Prop
  | .text _ => True
  | .json _ => False

/-- The call recorded for a successful retrieval. -/
def okCall (b : Nat) (k : Cache) (d : String) (r : Nat × Bytes × List Bytes) : ProofCall :=
  ⟨b, r.1, k, d, .ok r.2⟩

/-- The message printed when the retrieval for `index` fails with `e` (line 116). -/
def failureMessage (index : Nat) (e : String) : String :=
  "calculating the proofs failed for index: " ++ toString index ++ ", error: " ++ e ++ "\n"

/-- What is printed about the header serialization (lines 101-103). -/
def rlpMessages (r : Bytes × Option String) : List Printed :=
  match r.2 with
  | some e => [.text ("Can't rlp encode the header: " ++ e ++ "\n")]
  | none => []

/-- What is printed after the loop (lines 132-134). -/
def recordOutput : Option Output → List Printed
  | none => []
  | some o => [.text "Json output:\n\n", .json o]

/-- Modelled from the spec: `mtree.HashesToBranchesArray` is not under src/; the
spec (sections 3 and 4.3) has `merkle_proofs` hold all sibling-hash sequences
concatenated in index order, "each sibling encoded as an unsigned integer", so one
branch comes out per sibling hash. -/
def OneBranchPerHash {σ : Type} (c : Collaborators σ) : Prop :=
  ∀ proof : List Bytes, (c.HashesToBranchesArray proof).length = proof.length

/-- Modelled from the spec: `ethashproof.RLPHeader` is not under src/; on failure the
pipeline goes on "with empty header field" (section 4.4), so a failing serializer
hands back the empty byte string together with its error. -/
def FailsEmpty (r : Bytes × Option String) (e : String) : Prop :=
  r = ([], some e)

/-! ## Lemmas on the numeric encoding -/

theorem hexVal_digitChar (d : Nat) (h : d < 16) : hexVal (Nat.digitChar d) = some d := by
  interval_cases d <;> decide

theorem decodeDigits_toDigitsCore (fuel : Nat) :
    ∀ (n : Nat) (ds : List Char), n < fuel →
      decodeDigits (Nat.toDigitsCore 16 fuel n ds) 0 = decodeDigits ds n := by
  induction fuel with
  | zero => intro n ds h; omega
  | succ fuel ih =>
    intro n ds hn
    have hd := hexVal_digitChar (n % 16) (Nat.mod_lt _ (by decide))
    simp only [Nat.toDigitsCore]
    split
    · rename_i h0
      have hmod : n % 16 = n := by omega
      simp only [decodeDigits, hd, Nat.zero_mul, Nat.zero_add]
      rw [hmod]
    · rename_i h0
      rw [ih (n / 16) _ (by omega)]
      simp only [decodeDigits, hd]
      congr 1
      omega

theorem decodeDigits_Text16 (n : Nat) : decodeDigits (Text16 n) 0 = some n := by
  unfold Text16 Nat.toDigits
  rw [decodeDigits_toDigitsCore (n + 1) n [] (by omega)]
  rfl

theorem toDigitsCore_ne_nil (fuel n : Nat) (ds : List Char) (h : 0 < fuel ∨ ds ≠ []) :
    Nat.toDigitsCore 16 fuel n ds ≠ [] := by
  induction fuel generalizing n ds with
  | zero =>
    rcases h with h | h
    · omega
    · simpa [Nat.toDigitsCore] using h
  | succ fuel ih =>
    simp only [Nat.toDigitsCore]
    split
    · simp
    · exact ih _ _ (Or.inr (by simp))

theorem Text16_ne_nil (n : Nat) : Text16 n ≠ [] :=
  toDigitsCore_ne_nil _ _ _ (Or.inl (Nat.succ_pos n))

theorem digitChar_lowerHex (d : Nat) (h : d < 16) : Nat.digitChar d ∈ lowerHex := by
  interval_cases d <;> decide

theorem digitChar_ne_zero (d : Nat) (h0 : 0 < d) (h : d < 16) : Nat.digitChar d ≠ '0' := by
  interval_cases d <;> decide

theorem toDigitsCore_lowerHex (fuel : Nat) : ∀ (n : Nat) (ds : List Char),
    (∀ ch ∈ ds, ch ∈ lowerHex) → ∀ ch ∈ Nat.toDigitsCore 16 fuel n ds, ch ∈ lowerHex := by
  induction fuel with
  | zero => intro n ds h; simpa [Nat.toDigitsCore] using h
  | succ fuel ih =>
    intro n ds h
    have hd := digitChar_lowerHex (n % 16) (Nat.mod_lt _ (by decide))
    have hcons : ∀ ch ∈ Nat.digitChar (n % 16) :: ds, ch ∈ lowerHex := by
      intro ch hch
      rcases List.mem_cons.mp hch with hch | hch
      · rw [hch]
        exact hd
      · exact h ch hch
    simp only [Nat.toDigitsCore]
    split
    · exact hcons
    · exact ih _ _ hcons

theorem toDigitsCore_head (fuel : Nat) : ∀ (n : Nat) (ds : List Char), 0 < n → n < fuel →
    ∃ d r, Nat.toDigitsCore 16 fuel n ds = Nat.digitChar d :: r ∧ 0 < d ∧ d < 16 := by
  induction fuel with
  | zero => intro n ds _ h; omega
  | succ fuel ih =>
    intro n ds h0 hn
    simp only [Nat.toDigitsCore]
    split
    · exact ⟨n % 16, ds, rfl, by omega, Nat.mod_lt _ (by decide)⟩
    · exact ih (n / 16) _ (by omega) (by omega)

theorem Text16_format (n : Nat) (h0 : 0 < n) :
    (∀ ch ∈ Text16 n, ch ∈ lowerHex) ∧ (Text16 n).head? ≠ some '0' := by
  constructor
  · exact toDigitsCore_lowerHex _ _ _ (by simp)
  · obtain ⟨d, r, h1, h2, h3⟩ := toDigitsCore_head (n + 1) n [] h0 (by omega)
    unfold Text16 Nat.toDigits
    rw [h1]
    simp only [List.head?_cons, ne_eq, Option.some.injEq]
    exact digitChar_ne_zero d h2 h3

theorem EncodeBig_pos (n : Nat) (h0 : 0 < n) :
    EncodeBig (n : Int) = "0x" ++ String.mk (Text16 n) := by
  unfold EncodeBig
  have h1 : ¬ ((n : Int) = 0) := by omega
  have h2 : (0 : Int) < (n : Int) := by omega
  rw [if_neg h1, if_pos h2]
  simp

theorem DecodeBig_EncodeBig (n : Nat) : DecodeBig (EncodeBig (n : Int)) = some n := by
  unfold EncodeBig
  split
  · rename_i h0
    have : n = 0 := by exact_mod_cast h0
    subst this
    decide
  · rename_i h0
    have hpos : (0 : Int) < (n : Int) := by omega
    rw [if_pos hpos]
    have hne := Text16_ne_nil n
    have hdec := decodeDigits_Text16 n
    simp only [Int.toNat_ofNat]
    unfold DecodeBig
    cases hT : Text16 n with
    | nil => exact absurd hT hne
    | cons d ds =>
      rw [hT] at hdec
      simpa [String.data_append] using hdec

/-! ## Lemmas on the stages of `main` -/

theorem foldl_snoc_map {α β : Type} (f : α → β) (l : List α) (init : List β) :
    l.foldl (fun acc a => acc ++ [f a]) init = init ++ l.map f := by
  induction l generalizing init with
  | nil => simp
  | cons a l ih => simp [ih]

theorem emitted_append_text (l1 l2 : List Printed) (h : ∀ p ∈ l1, p.isText) :
    emitted (l1 ++ l2) = emitted l2 := by
  induction l1 with
  | nil => rfl
  | cons p l1 ih =>
    have hp := h p (by simp)
    cases p with
    | text s => simpa [emitted] using ih (fun q hq => h q (by simp [hq]))
    | json o => exact absurd hp (by simp [Printed.isText])

theorem emitted_text_only (l : List Printed) (h : ∀ p ∈ l, p.isText) : emitted l = none := by
  have := emitted_append_text l [] h
  simpa [emitted] using this

/-! ## Lemmas on argument parsing -/

theorem foldl_digits_ge (ds : List Char) : ∀ acc : Nat,
    acc ≤ ds.foldl (fun n ch => n * 10 + (ch.toNat - '0'.toNat)) acc := by
  induction ds with
  | nil => intro acc; exact Nat.le_refl _
  | cons ch cs ih =>
    intro acc
    simp only [List.foldl_cons]
    exact Nat.le_trans (by omega) (ih _)

theorem parseUintLoop_ok_iff (ds : List Char) : ∀ (acc v : Nat), acc < 2 ^ 64 →
    (parseUintLoop ds acc = .ok v ↔
      (∀ ch ∈ ds, ch.isDigit = true) ∧
      ds.foldl (fun n ch => n * 10 + (ch.toNat - '0'.toNat)) acc = v ∧ v < 2 ^ 64) := by
  induction ds with
  | nil =>
    intro acc v hacc
    simp only [parseUintLoop, Except.ok.injEq, List.not_mem_nil, false_implies, implies_true,
      List.foldl_nil, true_and]
    constructor
    · intro h
      subst h
      exact ⟨rfl, hacc⟩
    · intro h
      exact h.1
  | cons ch cs ih =>
    intro acc v hacc
    simp only [parseUintLoop, List.foldl_cons, List.mem_cons, forall_eq_or_imp]
    by_cases hd : ch.isDigit = true
    · simp only [hd, if_true, true_and]
      by_cases hov : 2 ^ 64 ≤ acc * 10 + (ch.toNat - '0'.toNat)
      · simp only [hov, if_true]
        constructor
        · intro h
          cases h
        · rintro ⟨_, h2, h3⟩
          have := foldl_digits_ge cs (acc * 10 + (ch.toNat - '0'.toNat))
          omega
      · simp only [hov, if_false]
        exact ih _ v (by omega)
    · simp only [hd]
      constructor
      · intro h
        simp at h
      · intro h
        exact absurd h.1.1 (by simp)

theorem splitSign_other (cs : List Char) (h1 : ∀ r, cs ≠ '-' :: r) (h2 : ∀ r, cs ≠ '+' :: r) :
    splitSign cs = (false, cs) := by
  unfold splitSign
  split
  · exact absurd rfl (h1 _)
  · exact absurd rfl (h2 _)
  · rfl

theorem atoi_body_ok_iff (neg : Bool) (ds : List Char) (n : Int) :
    (if ds = [] then (.error .syntaxErr : Except NumError Int)
      else
        match parseUintLoop ds 0 with
        | .error e => .error e
        | .ok un =>
          if neg then
            if 2 ^ 63 < un then .error .rangeErr else .ok (-(un : Int))
          else
            if 2 ^ 63 ≤ un then .error .rangeErr else .ok (un : Int)) = .ok n ↔
    ds ≠ [] ∧ (∀ ch ∈ ds, ch.isDigit = true) ∧
      n = (if neg then -(decimalValue ds : Int) else (decimalValue ds : Int)) ∧
      -(2 ^ 63) ≤ n ∧ n < 2 ^ 63 := by
  by_cases hnil : ds = []
  · simp [hnil]
  · simp only [hnil, if_false, ne_eq, not_false_eq_true, true_and]
    have key := parseUintLoop_ok_iff ds 0 (decimalValue ds) (by norm_num)
    cases hp : parseUintLoop ds 0 with
    | error e =>
      rw [hp] at key
      have key2 : (∀ ch ∈ ds, ch.isDigit = true) → ¬ decimalValue ds < 2 ^ 64 := by
        intro hdig hlt
        have := key.mpr ⟨hdig, rfl, hlt⟩
        cases this
      constructor
      · intro h
        cases h
      · rintro ⟨hdig, hn, hlo, hhi⟩
        have := key2 hdig
        cases neg
        · simp only [Bool.false_eq_true, if_false] at hn
          omega
        · simp only [if_true] at hn
          omega
    | ok un =>
      have hun := (parseUintLoop_ok_iff ds 0 un (by norm_num)).mp hp
      obtain ⟨hdig, hval, hlt⟩ := hun
      have hdv : decimalValue ds = un := hval
      cases neg
      · simp only [Bool.false_eq_true, if_false, hdv]
        by_cases hr : 2 ^ 63 ≤ un
        · simp only [hr, if_true]
          constructor
          · intro h
            cases h
          · rintro ⟨_, hn, _, hhi⟩
            omega
        · simp only [hr, if_false, Except.ok.injEq]
          constructor
          · intro h
            exact ⟨hdig, h.symm, by omega, by omega⟩
          · rintro ⟨_, hn, _, _⟩
            exact hn.symm
      · simp only [if_true, hdv]
        by_cases hr : 2 ^ 63 < un
        · simp only [hr, if_true]
          constructor
          · intro h
            cases h
          · rintro ⟨_, hn, hlo, _⟩
            omega
        · simp only [hr, if_false, Except.ok.injEq]
          constructor
          · intro h
            exact ⟨hdig, h.symm, by omega, by omega⟩
          · rintro ⟨_, hn, _, _⟩
            exact hn.symm

/-- What `strconv.Atoi` accepts: exactly the decimal integer literals (optional sign)
whose value lies in `[-2^63, 2^63 - 1]`. -/
theorem Atoi_ok_iff (a : String) (n : Int) :
    Atoi a = .ok n ↔ IsDecimalLiteral a n ∧ -(2 ^ 63) ≤ n ∧ n < 2 ^ 63 := by
  have hbody := atoi_body_ok_iff (splitSign a.data).1 (splitSign a.data).2 n
  have hA : Atoi a = .ok n ↔ (splitSign a.data).2 ≠ [] ∧
      (∀ ch ∈ (splitSign a.data).2, ch.isDigit = true) ∧
      n = (if (splitSign a.data).1 then -(decimalValue (splitSign a.data).2 : Int)
        else (decimalValue (splitSign a.data).2 : Int)) ∧
      -(2 ^ 63) ≤ n ∧ n < 2 ^ 63 := hbody
  rw [hA]
  have hminus : ('-' : Char).isDigit = false := by decide
  have hplus : ('+' : Char).isDigit = false := by decide
  by_cases h1 : ∃ r, a.data = '-' :: r
  · obtain ⟨r, hr⟩ := h1
    have hs : splitSign a.data = (true, r) := by rw [hr]; rfl
    rw [hs]
    simp only [if_true]
    constructor
    · rintro ⟨hne, hdig, hn, hlo, hhi⟩
      exact ⟨⟨r, hne, hdig, Or.inr ⟨hr, hn⟩⟩, hlo, hhi⟩
    · rintro ⟨⟨ds, hne, hdig, hcase⟩, hlo, hhi⟩
      rcases hcase with ⟨hd | hd, hn⟩ | ⟨hd, hn⟩
      · rw [hr] at hd
        have := hdig '-' (by rw [← hd]; simp)
        rw [hminus] at this
        cases this
      · rw [hr] at hd
        simp at hd
      · rw [hr] at hd
        simp only [List.cons.injEq, true_and] at hd
        subst hd
        exact ⟨hne, hdig, hn, hlo, hhi⟩
  · by_cases h2 : ∃ r, a.data = '+' :: r
    · obtain ⟨r, hr⟩ := h2
      have hs : splitSign a.data = (false, r) := by rw [hr]; rfl
      rw [hs]
      simp only [Bool.false_eq_true, if_false]
      constructor
      · rintro ⟨hne, hdig, hn, hlo, hhi⟩
        exact ⟨⟨r, hne, hdig, Or.inl ⟨Or.inr hr, hn⟩⟩, hlo, hhi⟩
      · rintro ⟨⟨ds, hne, hdig, hcase⟩, hlo, hhi⟩
        rcases hcase with ⟨hd | hd, hn⟩ | ⟨hd, hn⟩
        · rw [hr] at hd
          have := hdig '+' (by rw [← hd]; simp)
          rw [hplus] at this
          cases this
        · rw [hr] at hd
          simp only [List.cons.injEq, true_and] at hd
          subst hd
          exact ⟨hne, hdig, hn, hlo, hhi⟩
        · rw [hr] at hd
          simp at hd
    · have hs : splitSign a.data = (false, a.data) :=
        splitSign_other _ (fun r hr => h1 ⟨r, hr⟩) (fun r hr => h2 ⟨r, hr⟩)
      rw [hs]
      simp only [Bool.false_eq_true, if_false]
      constructor
      · rintro ⟨hne, hdig, hn, hlo, hhi⟩
        exact ⟨⟨a.data, hne, hdig, Or.inl ⟨Or.inl rfl, hn⟩⟩, hlo, hhi⟩
      · rintro ⟨⟨ds, hne, hdig, hcase⟩, hlo, hhi⟩
        rcases hcase with ⟨hd | hd, hn⟩ | ⟨hd, hn⟩
        · rw [← hd] at hne hdig hn
          exact ⟨hne, hdig, hn, hlo, hhi⟩
        · exact absurd ⟨ds, hd⟩ h2
        · exact absurd ⟨ds, hd⟩ h1

/-! ## Lemmas on sequencing -/

theorem pure_eq {σ α : Type} (a : α) : (pure a : Prog σ α) = Prog.pure a := rfl

theorem bind_eq {σ α β : Type} (m : Prog σ α) (f : α → Prog σ β) :
    (m >>= f) = Prog.bind m f := rfl

@[simp] theorem prepend_trace {σ α : Type} (t : List Event) (o : List Printed) (r : Run σ α) :
    (r.prepend t o).trace = t ++ r.trace := rfl

@[simp] theorem prepend_stdout {σ α : Type} (t : List Event) (o : List Printed) (r : Run σ α) :
    (r.prepend t o).stdout = o ++ r.stdout := rfl

@[simp] theorem prepend_state {σ α : Type} (t : List Event) (o : List Printed) (r : Run σ α) :
    (r.prepend t o).state = r.state := rfl

@[simp] theorem prepend_value {σ α : Type} (t : List Event) (o : List Printed) (r : Run σ α) :
    (r.prepend t o).value = r.value := rfl

@[simp] theorem prepend_fatal {σ α : Type} (t : List Event) (o : List Printed) (r : Run σ α) :
    (r.prepend t o).fatal = r.fatal := rfl

@[simp] theorem prepend_nil {σ α : Type} (r : Run σ α) : r.prepend [] [] = r := rfl

@[simp] theorem prepend_prepend {σ α : Type} (t1 t2 : List Event) (o1 o2 : List Printed)
    (r : Run σ α) : (r.prepend t2 o2).prepend t1 o1 = r.prepend (t1 ++ t2) (o1 ++ o2) := by
  simp [Run.prepend]

theorem bind_of_none {σ α β : Type} (m : Prog σ α) (f : α → Prog σ β) (s : σ)
    (h : (m.run s).value = none) :
    (Prog.bind m f).run s =
      { trace := (m.run s).trace, stdout := (m.run s).stdout, fatal := (m.run s).fatal,
        state := (m.run s).state, value := none } := by
  simp [Prog.bind, h]

theorem bind_of_some {σ α β : Type} (m : Prog σ α) (f : α → Prog σ β) (s : σ) (a : α)
    (h : (m.run s).value = some a) :
    (Prog.bind m f).run s = ((f a).run (m.run s).state).prepend (m.run s).trace (m.run s).stdout := by
  simp [Prog.bind, h]

@[simp] theorem bind_pure {σ α β : Type} (a : α) (f : α → Prog σ β) (s : σ) :
    (Prog.bind (Prog.pure a) f).run s = (f a).run s := by
  simp [Prog.bind, Prog.pure]

@[simp] theorem bind_printf {σ β : Type} (msg : String) (f : Unit → Prog σ β) (s : σ) :
    (Prog.bind (printf msg) f).run s = ((f ()).run s).prepend [] [.text msg] := by
  simp [Prog.bind, printf]

@[simp] theorem bind_printJson {σ β : Type} (o : Output) (f : Unit → Prog σ β) (s : σ) :
    (Prog.bind (printJson o) f).run s = ((f ()).run s).prepend [] [.json o] := by
  simp [Prog.bind, printJson]

@[simp] theorem stop_run {σ α : Type} (s : σ) :
    (stop : Prog σ α).run s =
      { trace := [], stdout := [], fatal := none, state := s, value := none } :=
  rfl

@[simp] theorem pure_run {σ α : Type} (a : α) (s : σ) :
    (Prog.pure a).run s =
      { trace := [], stdout := [], fatal := none, state := s, value := some a } :=
  rfl

@[simp] theorem logFatal_run {σ α : Type} (e : String) (s : σ) :
    (logFatal e : Prog σ α).run s =
      { trace := [], stdout := [], fatal := some e, state := s, value := none } :=
  rfl

@[simp] theorem printf_run {σ : Type} (msg : String) (s : σ) :
    (printf msg).run s =
      { trace := [], stdout := [.text msg], fatal := none, state := s, value := some () } :=
  rfl

@[simp] theorem printJson_run {σ : Type} (o : Output) (s : σ) :
    (printJson o).run s =
      { trace := [], stdout := [.json o], fatal := none, state := s, value := some () } :=
  rfl

@[simp] theorem bind_stop {σ α β : Type} (f : α → Prog σ β) (s : σ) :
    (Prog.bind (stop : Prog σ α) f).run s = (stop : Prog σ β).run s := by
  simp [Prog.bind, stop]

@[simp] theorem bind_logFatal {σ α β : Type} (e : String) (f : α → Prog σ β) (s : σ) :
    (Prog.bind (logFatal e : Prog σ α) f).run s = (logFatal e : Prog σ β).run s := by
  simp [Prog.bind, logFatal]

@[simp] theorem bind_call {σ ρ β : Type} (g : σ → ρ × σ) (ev : ρ → Event) (f : ρ → Prog σ β)
    (s : σ) :
    (Prog.bind (call g ev) f).run s = ((f (g s).1).run (g s).2).prepend [ev (g s).1] [] := by
  simp [Prog.bind, call]

theorem bind_bind_run {σ α β γ : Type} (m : Prog σ α) (f : α → Prog σ β) (g : β → Prog σ γ)
    (s : σ) :
    (Prog.bind (Prog.bind m f) g).run s = (Prog.bind m (fun a => Prog.bind (f a) g)).run s := by
  cases h : (m.run s).value with
  | none => simp [Prog.bind, h]
  | some a =>
    simp only [Prog.bind, h, prepend_value, prepend_state, prepend_trace, prepend_stdout]
    cases h2 : ((f a).run (m.run s).state).value <;> simp [Run.prepend]

@[simp] theorem bind_bind {σ α β γ : Type} (m : Prog σ α) (f : α → Prog σ β) (g : β → Prog σ γ) :
    Prog.bind (Prog.bind m f) g = Prog.bind m (fun a => Prog.bind (f a) g) := by
  have h := funext (bind_bind_run m f g)
  cases hx : Prog.bind (Prog.bind m f) g
  cases hy : Prog.bind m (fun a => Prog.bind (f a) g)
  rw [hx, hy] at h
  simpa using h

theorem setup_trace_isSetup {σ : Type} (c : Collaborators σ) (args : List String) (s : σ) :
    ∀ e ∈ ((setup c args).run s).trace, e.isSetup := by
  simp only [setup, getHomeDir, bind_eq, pure_eq, bind_bind]
  repeat' (first | split | simp [Event.isSetup])

theorem setup_stdout_isText {σ : Type} (c : Collaborators σ) (args : List String) (s : σ) :
    ∀ p ∈ ((setup c args).run s).stdout, p.isText := by
  simp only [setup, getHomeDir, bind_eq, pure_eq, bind_bind]
  repeat' (first | split | simp [Printed.isText])

theorem setup_fetched {σ : Type} (c : Collaborators σ) (args : List String) (s : σ) :
    (∀ x, ((setup c args).run s).value = some x →
      fetchedHeaders ((setup c args).run s).trace = [x.1]) ∧
    (((setup c args).run s).value = none → fetchedHeaders ((setup c args).run s).trace = []) := by
  simp only [setup, getHomeDir, bind_eq, pure_eq, bind_bind]
  repeat' (first | split | simp only [bind_call, bind_printf, bind_pure, bind_stop, bind_logFatal])
  all_goals simp_all [fetchedHeaders, Event.header?]

/-! ### The loop -/

theorem proofLoop_events {σ : Type} (c : Collaborators σ) (b : Nat) (k : Cache) (d : String)
    (idxs : List Nat) : ∀ (out : Output) (s : σ),
    ∀ e ∈ ((proofLoop c b k d idxs out).run s).trace, ∃ i r, e = Event.CalculateProof b i k d r := by
  induction idxs with
  | nil => intro out s; simp [proofLoop, pure_eq]
  | cons i rest ih =>
    intro out s
    simp only [proofLoop, bind_eq, pure_eq, bind_bind, bind_call]
    split
    · simp
    · intro e he
      simp only [prepend_trace, List.singleton_append, List.mem_cons] at he
      rcases he with he | he
      · exact ⟨_, _, he⟩
      · exact ih _ _ e he

theorem proofLoop_some {σ : Type} (c : Collaborators σ) (b : Nat) (k : Cache) (d : String)
    (idxs : List Nat) : ∀ (out o : Output) (s : σ),
    ((proofLoop c b k d idxs out).run s).value = some o →
      ((proofLoop c b k d idxs out).run s).stdout = [] ∧
      (proofOks ((proofLoop c b k d idxs out).run s).trace).map (fun r => r.1) = idxs ∧
      proofCalls ((proofLoop c b k d idxs out).run s).trace =
        (proofOks ((proofLoop c b k d idxs out).run s).trace).map (okCall b k d) ∧
      o = { out with
            Elements := out.Elements ++
              (proofOks ((proofLoop c b k d idxs out).run s).trace).flatMap
                (fun r => elementBlock c r.2.1),
            MerkleProofs := out.MerkleProofs ++
              (proofOks ((proofLoop c b k d idxs out).run s).trace).flatMap
                (fun r => proofBlock c r.2.2) } := by
  induction idxs with
  | nil =>
    intro out o s h
    simp [proofLoop, pure_eq] at h
    simp [proofLoop, pure_eq, proofOks, proofCalls, h]
  | cons i rest ih =>
    intro out o s
    simp only [proofLoop, bind_eq, pure_eq, bind_bind, bind_call]
    split
    · simp
    · rename_i element proof heq
      intro h
      simp only [prepend_value] at h
      obtain ⟨h1, h2, h3, h4⟩ := ih _ o _ h
      refine ⟨by simpa using h1, ?_, ?_, ?_⟩
      · simp [proofOks, Event.proofOk?, heq, List.filterMap_cons] at h2 ⊢
        exact h2
      · simp [proofOks, proofCalls, Event.proofOk?, Event.proofCall?, heq, List.filterMap_cons,
          okCall] at h3 ⊢
        exact h3
      · rw [h4]
        simp [proofOks, Event.proofOk?, heq, List.filterMap_cons, foldl_snoc_map, elementBlock,
          proofBlock, List.map_map, Function.comp_def]

theorem proofLoop_none {σ : Type} (c : Collaborators σ) (b : Nat) (k : Cache) (d : String)
    (idxs : List Nat) : ∀ (out : Output) (s : σ),
    ((proofLoop c b k d idxs out).run s).value = none →
      ∃ i e post,
        idxs = (proofOks ((proofLoop c b k d idxs out).run s).trace).map (fun r => r.1) ++ i :: post ∧
        proofCalls ((proofLoop c b k d idxs out).run s).trace =
          (proofOks ((proofLoop c b k d idxs out).run s).trace).map (okCall b k d) ++
            [⟨b, i, k, d, .err e⟩] ∧
        ((proofLoop c b k d idxs out).run s).stdout = [.text (failureMessage i e)] := by
  induction idxs with
  | nil =>
    intro out s h
    simp [proofLoop, pure_eq] at h
  | cons i rest ih =>
    intro out s
    simp only [proofLoop, bind_eq, pure_eq, bind_bind, bind_call]
    split
    · rename_i e heq
      intro _
      refine ⟨i, e, rest, ?_, ?_, ?_⟩
      · simp [proofOks, Event.proofOk?, heq]
      · simp [proofOks, proofCalls, Event.proofOk?, Event.proofCall?, heq]
      · simp [failureMessage]
    · rename_i element proof heq
      intro h
      simp only [prepend_value] at h
      obtain ⟨j, e, post, h1, h2, h3⟩ := ih _ _ h
      refine ⟨j, e, post, ?_, ?_, ?_⟩
      · simp [proofOks, Event.proofOk?, heq, List.filterMap_cons] at h1 ⊢
        exact h1
      · simp [proofOks, proofCalls, Event.proofOk?, Event.proofCall?, heq, List.filterMap_cons,
          okCall] at h2 ⊢
        exact h2
      · simpa using h3

/-! ### The commitment resolution -/

theorem resolveCache_stdout_isText {σ : Type} (c : Collaborators σ) (ep : Nat)
    (d cd : String) (s : σ) :
    ∀ p ∈ ((resolveCache c ep d cd).run s).stdout, p.isText := by
  simp only [resolveCache, bind_eq, pure_eq, bind_bind]
  repeat' (first | split | simp only [bind_call, bind_printf, bind_pure, bind_stop, bind_logFatal])
  all_goals simp_all [Printed.isText]

theorem resolveCache_other {σ : Type} (c : Collaborators σ) (ep : Nat)
    (d cd : String) (s : σ) :
    proofCalls ((resolveCache c ep d cd).run s).trace = [] ∧
    fetchedHeaders ((resolveCache c ep d cd).run s).trace = [] ∧
    fetchedIndices ((resolveCache c ep d cd).run s).trace = [] := by
  simp only [resolveCache, bind_eq, pure_eq, bind_bind]
  repeat' (first | split | simp only [bind_call, bind_printf, bind_pure, bind_stop, bind_logFatal])
  all_goals simp_all [proofCalls, fetchedHeaders, fetchedIndices, Event.proofCall?,
    Event.header?, Event.indices?]

theorem resolveCache_epochs {σ : Type} (c : Collaborators σ) (ep : Nat)
    (d cd : String) (s : σ) :
    requestedEpochs ((resolveCache c ep d cd).run s).trace ≠ [] ∧
    ∀ e ∈ requestedEpochs ((resolveCache c ep d cd).run s).trace, e = toInt ep ∨ e = (ep : Int) := by
  simp only [resolveCache, bind_eq, pure_eq, bind_bind]
  repeat' (first | split | simp only [bind_call, bind_printf, bind_pure, bind_stop, bind_logFatal])
  all_goals simp_all [requestedEpochs, Event.epoch?]

theorem resolveCache_shape {σ : Type} (c : Collaborators σ) (ep : Nat)
    (d cd : String) (s : σ) :
    (∃ k, loads ((resolveCache c ep d cd).run s).trace = [.ok k] ∧
      rebuilds ((resolveCache c ep d cd).run s).trace = [] ∧
      ((resolveCache c ep d cd).run s).value = some k) ∨
    (∃ e e2, loads ((resolveCache c ep d cd).run s).trace = [.err e] ∧
      rebuilds ((resolveCache c ep d cd).run s).trace = [.err e2] ∧
      ((resolveCache c ep d cd).run s).value = none) ∨
    (∃ e r e3, loads ((resolveCache c ep d cd).run s).trace = [.err e, .err e3] ∧
      rebuilds ((resolveCache c ep d cd).run s).trace = [.ok r] ∧
      ((resolveCache c ep d cd).run s).value = none) ∨
    (∃ e r k, loads ((resolveCache c ep d cd).run s).trace = [.err e, .ok k] ∧
      rebuilds ((resolveCache c ep d cd).run s).trace = [.ok r] ∧
      ((resolveCache c ep d cd).run s).value = some k) := by
  simp only [resolveCache, bind_eq, pure_eq, bind_bind]
  repeat' (first | split | simp only [bind_call, bind_printf, bind_pure, bind_stop, bind_logFatal])
  all_goals simp_all [loads, rebuilds, Event.load?, Event.rebuild?]

/-! ### Putting the stages together -/

theorem assemble_none {σ : Type} (c : Collaborators σ) (h : Header) (d cd : String) (s : σ)
    (hR : ((resolveCache c (Uint64 h.Number / 30000) d cd).run s).value = none) :
    ((assemble c h d cd).run s).trace =
        ((resolveCache c (Uint64 h.Number / 30000) d cd).run s).trace ∧
    ((assemble c h d cd).run s).stdout =
        ((resolveCache c (Uint64 h.Number / 30000) d cd).run s).stdout ∧
    ((assemble c h d cd).run s).value = none := by
  simp only [assemble, bind_eq, pure_eq]
  rw [bind_of_none _ _ _ hR]
  simp

theorem assemble_some {σ : Type} (c : Collaborators σ) (h : Header) (d cd : String) (s : σ)
    (k : Cache)
    (hR : ((resolveCache c (Uint64 h.Number / 30000) d cd).run s).value = some k) :
    ((assemble c h d cd).run s).trace =
        ((resolveCache c (Uint64 h.Number / 30000) d cd).run s).trace ++
          [Event.GetVerificationIndices (Uint64 h.Number) (c.SealHash h) h.Nonce
              (c.GetVerificationIndices (Uint64 h.Number) (c.SealHash h) h.Nonce
                ((resolveCache c (Uint64 h.Number / 30000) d cd).run s).state).1,
            Event.RLPHeader h (c.RLPHeader h)] ∧
    ((assemble c h d cd).run s).stdout =
        ((resolveCache c (Uint64 h.Number / 30000) d cd).run s).stdout ++
          (.text ("Proof length: " ++ toString k.ProofLength ++ "\n") ::
            rlpMessages (c.RLPHeader h)) ∧
    ((assemble c h d cd).run s).state =
        (c.GetVerificationIndices (Uint64 h.Number) (c.SealHash h) h.Nonce
          ((resolveCache c (Uint64 h.Number / 30000) d cd).run s).state).2 ∧
    ((assemble c h d cd).run s).value =
        some (Uint64 h.Number,
          (c.GetVerificationIndices (Uint64 h.Number) (c.SealHash h) h.Nonce
            ((resolveCache c (Uint64 h.Number / 30000) d cd).run s).state).1,
          k, initialOutput c (c.RLPHeader h).1 k) := by
  simp only [assemble, bind_eq, pure_eq]
  rw [bind_of_some _ _ _ _ hR]
  simp only [bind_bind, bind_call, bind_printf]
  split <;> simp_all [rlpMessages]

theorem beforeLoop_setup_none {σ : Type} (c : Collaborators σ) (args : List String) (s : σ)
    (hS : ((setup c args).run s).value = none) :
    ((beforeLoop c args).run s).trace = ((setup c args).run s).trace ∧
    ((beforeLoop c args).run s).stdout = ((setup c args).run s).stdout ∧
    ((beforeLoop c args).run s).state = ((setup c args).run s).state ∧
    ((beforeLoop c args).run s).value = none := by
  simp only [beforeLoop, bind_eq, pure_eq]
  rw [bind_of_none _ _ _ hS]
  simp

theorem beforeLoop_setup_some {σ : Type} (c : Collaborators σ) (args : List String) (s : σ)
    (h : Header) (d cd : String) (hS : ((setup c args).run s).value = some (h, d, cd)) :
    ((beforeLoop c args).run s).trace =
      ((setup c args).run s).trace ++ ((assemble c h d cd).run ((setup c args).run s).state).trace ∧
    ((beforeLoop c args).run s).stdout =
      ((setup c args).run s).stdout ++
        ((assemble c h d cd).run ((setup c args).run s).state).stdout ∧
    ((beforeLoop c args).run s).state = ((assemble c h d cd).run ((setup c args).run s).state).state ∧
    ((beforeLoop c args).run s).value =
      (((assemble c h d cd).run ((setup c args).run s).state).value).map
        (fun x => (d, x.1, x.2.1, x.2.2.1, x.2.2.2)) := by
  simp only [beforeLoop, bind_eq, pure_eq]
  rw [bind_of_some _ _ _ _ hS]
  cases hA : ((assemble c h d cd).run ((setup c args).run s).state).value with
  | none => simp [bind_of_none _ _ _ hA]
  | some x => simp [bind_of_some _ _ _ _ hA]

theorem main_before_none {σ : Type} (c : Collaborators σ) (args : List String) (s : σ)
    (hB : ((beforeLoop c args).run s).value = none) :
    ((main c args).run s).trace = ((beforeLoop c args).run s).trace ∧
    ((main c args).run s).stdout = ((beforeLoop c args).run s).stdout ∧
    ((main c args).run s).state = ((beforeLoop c args).run s).state := by
  simp only [main, bind_eq, pure_eq]
  rw [bind_of_none _ _ _ hB]
  simp

theorem main_before_some {σ : Type} (c : Collaborators σ) (args : List String) (s : σ)
    (d : String) (b : Nat) (idxs : List Nat) (k : Cache) (out : Output)
    (hB : ((beforeLoop c args).run s).value = some (d, b, idxs, k, out)) :
    ((main c args).run s).trace =
      ((beforeLoop c args).run s).trace ++
        ((proofLoop c b k d idxs out).run ((beforeLoop c args).run s).state).trace ∧
    ((main c args).run s).stdout =
      ((beforeLoop c args).run s).stdout ++
        ((proofLoop c b k d idxs out).run ((beforeLoop c args).run s).state).stdout ++
        recordOutput ((proofLoop c b k d idxs out).run ((beforeLoop c args).run s).state).value ∧
    ((main c args).run s).state =
      ((proofLoop c b k d idxs out).run ((beforeLoop c args).run s).state).state := by
  simp only [main, bind_eq, pure_eq]
  rw [bind_of_some _ _ _ _ hB]
  cases hL : ((proofLoop c b k d idxs out).run ((beforeLoop c args).run s).state).value with
  | none => simp [bind_of_none _ _ _ hL, recordOutput]
  | some o => simp [bind_of_some _ _ _ _ hL, recordOutput]

theorem rlpMessages_isText (r : Bytes × Option String) : ∀ p ∈ rlpMessages r, p.isText := by
  unfold rlpMessages
  split <;> simp [Printed.isText]

theorem proofLoop_stdout_isText {σ : Type} (c : Collaborators σ) (b : Nat) (k : Cache)
    (d : String) (idxs : List Nat) (out : Output) (s : σ) :
    ∀ p ∈ ((proofLoop c b k d idxs out).run s).stdout, p.isText := by
  cases hL : ((proofLoop c b k d idxs out).run s).value with
  | none =>
    obtain ⟨i, e, post, _, _, h3⟩ := proofLoop_none c b k d idxs out s hL
    rw [h3]
    simp [Printed.isText]
  | some o =>
    obtain ⟨h1, _⟩ := proofLoop_some c b k d idxs out o s hL
    rw [h1]
    simp

theorem emitted_loop {σ : Type} (c : Collaborators σ) (b : Nat) (k : Cache)
    (d : String) (idxs : List Nat) (out : Output) (s : σ) (pre : List Printed)
    (hpre : ∀ p ∈ pre, p.isText) :
    emitted (pre ++ ((proofLoop c b k d idxs out).run s).stdout ++
      recordOutput ((proofLoop c b k d idxs out).run s).value) =
      ((proofLoop c b k d idxs out).run s).value := by
  rw [List.append_assoc, emitted_append_text _ _ hpre,
    emitted_append_text _ _ (proofLoop_stdout_isText c b k d idxs out s)]
  cases ((proofLoop c b k d idxs out).run s).value <;> simp [recordOutput, emitted]

/-- The run of `main` is the run of its stages, one after the other: it ends in
`setup`, or in the commitment resolution, or goes through the loop. -/
theorem main_shape {σ : Type} (c : Collaborators σ) (args : List String) (s : σ) :
    (((setup c args).run s).value = none ∧
      ((main c args).run s).trace = ((setup c args).run s).trace ∧
      ((main c args).run s).stdout = ((setup c args).run s).stdout ∧
      ((main c args).run s).state = ((setup c args).run s).state ∧
      emitted ((main c args).run s).stdout = none) ∨
    (∃ h d cd, ((setup c args).run s).value = some (h, d, cd) ∧
      ((resolveCache c (Uint64 h.Number / 30000) d cd).run ((setup c args).run s).state).value
        = none ∧
      ((main c args).run s).trace = ((setup c args).run s).trace ++
        ((resolveCache c (Uint64 h.Number / 30000) d cd).run ((setup c args).run s).state).trace ∧
      ((main c args).run s).stdout = ((setup c args).run s).stdout ++
        ((resolveCache c (Uint64 h.Number / 30000) d cd).run
          ((setup c args).run s).state).stdout ∧
      emitted ((main c args).run s).stdout = none) ∨
    (∃ h d cd k s2, ((setup c args).run s).value = some (h, d, cd) ∧
      ((resolveCache c (Uint64 h.Number / 30000) d cd).run ((setup c args).run s).state).value
        = some k ∧
      s2 = ((resolveCache c (Uint64 h.Number / 30000) d cd).run
        ((setup c args).run s).state).state ∧
      ((beforeLoop c args).run s).stdout = ((setup c args).run s).stdout ++
        (((resolveCache c (Uint64 h.Number / 30000) d cd).run
            ((setup c args).run s).state).stdout ++
          (.text ("Proof length: " ++ toString k.ProofLength ++ "\n") ::
            rlpMessages (c.RLPHeader h))) ∧
      ((main c args).run s).trace = ((setup c args).run s).trace ++
        (((resolveCache c (Uint64 h.Number / 30000) d cd).run
            ((setup c args).run s).state).trace ++
          [Event.GetVerificationIndices (Uint64 h.Number) (c.SealHash h) h.Nonce
              (c.GetVerificationIndices (Uint64 h.Number) (c.SealHash h) h.Nonce s2).1,
            Event.RLPHeader h (c.RLPHeader h)]) ++
        ((proofLoop c (Uint64 h.Number) k d
            (c.GetVerificationIndices (Uint64 h.Number) (c.SealHash h) h.Nonce s2).1
            (initialOutput c (c.RLPHeader h).1 k)).run
          (c.GetVerificationIndices (Uint64 h.Number) (c.SealHash h) h.Nonce s2).2).trace ∧
      ((main c args).run s).stdout = ((beforeLoop c args).run s).stdout ++
        ((proofLoop c (Uint64 h.Number) k d
            (c.GetVerificationIndices (Uint64 h.Number) (c.SealHash h) h.Nonce s2).1
            (initialOutput c (c.RLPHeader h).1 k)).run
          (c.GetVerificationIndices (Uint64 h.Number) (c.SealHash h) h.Nonce s2).2).stdout ++
        recordOutput ((proofLoop c (Uint64 h.Number) k d
            (c.GetVerificationIndices (Uint64 h.Number) (c.SealHash h) h.Nonce s2).1
            (initialOutput c (c.RLPHeader h).1 k)).run
          (c.GetVerificationIndices (Uint64 h.Number) (c.SealHash h) h.Nonce s2).2).value ∧
      emitted ((main c args).run s).stdout =
        ((proofLoop c (Uint64 h.Number) k d
            (c.GetVerificationIndices (Uint64 h.Number) (c.SealHash h) h.Nonce s2).1
            (initialOutput c (c.RLPHeader h).1 k)).run
          (c.GetVerificationIndices (Uint64 h.Number) (c.SealHash h) h.Nonce s2).2).value) := by
  cases hS : ((setup c args).run s).value with
  | none =>
    left
    obtain ⟨b1, b2, b3, b4⟩ := beforeLoop_setup_none c args s hS
    obtain ⟨m1, m2, m3⟩ := main_before_none c args s b4
    refine ⟨rfl, by rw [m1, b1], by rw [m2, b2], by rw [m3, b3], ?_⟩
    rw [m2, b2]
    exact emitted_text_only _ (setup_stdout_isText c args s)
  | some x =>
    obtain ⟨h, d, cd⟩ := x
    right
    obtain ⟨b1, b2, b3, b4⟩ := beforeLoop_setup_some c args s h d cd hS
    cases hR : ((resolveCache c (Uint64 h.Number / 30000) d cd).run
        ((setup c args).run s).state).value with
    | none =>
      left
      obtain ⟨a1, a2, a3⟩ := assemble_none c h d cd _ hR
      rw [a3] at b4
      obtain ⟨m1, m2, _⟩ := main_before_none c args s b4
      refine ⟨h, d, cd, rfl, hR, by rw [m1, b1, a1], by rw [m2, b2, a2], ?_⟩
      rw [m2, b2, a2]
      apply emitted_text_only
      intro p hp
      rcases List.mem_append.mp hp with hp | hp
      · exact setup_stdout_isText c args s p hp
      · exact resolveCache_stdout_isText c _ d cd _ p hp
    | some k =>
      right
      obtain ⟨a1, a2, a3, a4⟩ := assemble_some c h d cd _ k hR
      rw [a4] at b4
      obtain ⟨m1, m2, _⟩ := main_before_some c args s _ _ _ _ _ b4
      refine ⟨h, d, cd, k, _, rfl, hR, rfl, by rw [b2, a2], ?_, ?_, ?_⟩
      · rw [m1, b1, a1, b3, a3]
      · rw [m2, b3, a3]
      · rw [m2, b3, a3]
        apply emitted_loop
        rw [b2, a2]
        intro p hp
        rcases List.mem_append.mp hp with hp | hp
        · exact setup_stdout_isText c args s p hp
        · rcases List.mem_append.mp hp with hp | hp
          · exact resolveCache_stdout_isText c _ d cd _ p hp
          · rcases List.mem_cons.mp hp with hp | hp
            · rw [hp]
              trivial
            · exact rlpMessages_isText _ p hp

/-! ### Stages and trace readings -/

theorem proofCalls_append (a b : List Event) : proofCalls (a ++ b) = proofCalls a ++ proofCalls b := by
  simp [proofCalls]

theorem proofOks_append (a b : List Event) : proofOks (a ++ b) = proofOks a ++ proofOks b := by
  simp [proofOks]

theorem loads_append (a b : List Event) : loads (a ++ b) = loads a ++ loads b := by
  simp [loads]

theorem rebuilds_append (a b : List Event) : rebuilds (a ++ b) = rebuilds a ++ rebuilds b := by
  simp [rebuilds]

theorem requestedEpochs_append (a b : List Event) :
    requestedEpochs (a ++ b) = requestedEpochs a ++ requestedEpochs b := by
  simp [requestedEpochs]

theorem fetchedHeaders_append (a b : List Event) :
    fetchedHeaders (a ++ b) = fetchedHeaders a ++ fetchedHeaders b := by
  simp [fetchedHeaders]

theorem fetchedIndices_append (a b : List Event) :
    fetchedIndices (a ++ b) = fetchedIndices a ++ fetchedIndices b := by
  simp [fetchedIndices]

theorem setup_readings {σ : Type} (c : Collaborators σ) (args : List String) (s : σ) :
    proofCalls ((setup c args).run s).trace = [] ∧
    proofOks ((setup c args).run s).trace = [] ∧
    loads ((setup c args).run s).trace = [] ∧
    rebuilds ((setup c args).run s).trace = [] ∧
    requestedEpochs ((setup c args).run s).trace = [] ∧
    fetchedIndices ((setup c args).run s).trace = [] := by
  have h := setup_trace_isSetup c args s
  simp only [proofCalls, proofOks, loads, rebuilds, requestedEpochs, fetchedIndices,
    List.filterMap_eq_nil_iff]
  refine ⟨?_, ?_, ?_, ?_, ?_, ?_⟩ <;>
  · intro e he
    have hs := h e he
    cases e <;> first | rfl | exact absurd hs (by simp [Event.isSetup])

theorem loop_readings (b : Nat) (k : Cache) (d : String) (t : List Event)
    (h : ∀ e ∈ t, ∃ i r, e = Event.CalculateProof b i k d r) :
    loads t = [] ∧ rebuilds t = [] ∧ requestedEpochs t = [] ∧ fetchedHeaders t = [] ∧
    fetchedIndices t = [] ∧
    ∀ pc ∈ proofCalls t, pc.blockno = b ∧ pc.cache = k ∧ pc.dataDir = d := by
  simp only [loads, rebuilds, requestedEpochs, fetchedIndices, fetchedHeaders, proofCalls,
    List.filterMap_eq_nil_iff, List.mem_filterMap]
  refine ⟨?_, ?_, ?_, ?_, ?_, ?_⟩
  · intro e he
    obtain ⟨i, r, rfl⟩ := h e he
    rfl
  · intro e he
    obtain ⟨i, r, rfl⟩ := h e he
    rfl
  · intro e he
    obtain ⟨i, r, rfl⟩ := h e he
    rfl
  · intro e he
    obtain ⟨i, r, rfl⟩ := h e he
    rfl
  · intro e he
    obtain ⟨i, r, rfl⟩ := h e he
    rfl
  · rintro pc ⟨e, he, hpc⟩
    obtain ⟨i, r, rfl⟩ := h e he
    simp only [Event.proofCall?, Option.some.injEq] at hpc
    subst hpc
    exact ⟨rfl, rfl, rfl⟩

theorem resolveCache_proofOks {σ : Type} (c : Collaborators σ) (ep : Nat)
    (d cd : String) (s : σ) : proofOks ((resolveCache c ep d cd).run s).trace = [] := by
  simp only [resolveCache, bind_eq, pure_eq, bind_bind]
  repeat' (first | split | simp only [bind_call, bind_printf, bind_pure, bind_stop, bind_logFatal])
  all_goals simp_all [proofOks, Event.proofOk?]

theorem middle_readings (b : Nat) (sh : Bytes) (n : Nat) (r : List Nat) (h : Header)
    (r2 : Bytes × Option String) :
    loads [Event.GetVerificationIndices b sh n r, Event.RLPHeader h r2] = [] ∧
    rebuilds [Event.GetVerificationIndices b sh n r, Event.RLPHeader h r2] = [] ∧
    requestedEpochs [Event.GetVerificationIndices b sh n r, Event.RLPHeader h r2] = [] ∧
    fetchedHeaders [Event.GetVerificationIndices b sh n r, Event.RLPHeader h r2] = [] ∧
    proofCalls [Event.GetVerificationIndices b sh n r, Event.RLPHeader h r2] = [] ∧
    proofOks [Event.GetVerificationIndices b sh n r, Event.RLPHeader h r2] = [] ∧
    fetchedIndices [Event.GetVerificationIndices b sh n r, Event.RLPHeader h r2] = [r] :=
  ⟨rfl, rfl, rfl, rfl, rfl, rfl, rfl⟩

/-- What a run of `main` did, read off its trace, in each of the three ways it can
go: ended in `setup`; ended in the commitment resolution; went through the loop. -/
theorem main_readings {σ : Type} (c : Collaborators σ) (args : List String) (s : σ) :
    (((setup c args).run s).value = none ∧
      ((main c args).run s).trace = ((setup c args).run s).trace ∧
      ((main c args).run s).state = ((setup c args).run s).state ∧
      emitted ((main c args).run s).stdout = none ∧
      loads ((main c args).run s).trace = [] ∧
      rebuilds ((main c args).run s).trace = [] ∧
      requestedEpochs ((main c args).run s).trace = [] ∧
      fetchedHeaders ((main c args).run s).trace = [] ∧
      fetchedIndices ((main c args).run s).trace = [] ∧
      proofCalls ((main c args).run s).trace = []) ∨
    (∃ h d cd s1, ((setup c args).run s).value = some (h, d, cd) ∧
      s1 = ((setup c args).run s).state ∧
      ((resolveCache c (Uint64 h.Number / 30000) d cd).run s1).value = none ∧
      emitted ((main c args).run s).stdout = none ∧
      loads ((main c args).run s).trace =
        loads ((resolveCache c (Uint64 h.Number / 30000) d cd).run s1).trace ∧
      rebuilds ((main c args).run s).trace =
        rebuilds ((resolveCache c (Uint64 h.Number / 30000) d cd).run s1).trace ∧
      requestedEpochs ((main c args).run s).trace =
        requestedEpochs ((resolveCache c (Uint64 h.Number / 30000) d cd).run s1).trace ∧
      fetchedHeaders ((main c args).run s).trace = [h] ∧
      fetchedIndices ((main c args).run s).trace = [] ∧
      proofCalls ((main c args).run s).trace = []) ∨
    (∃ h d cd s1 k idxs s3, ((setup c args).run s).value = some (h, d, cd) ∧
      s1 = ((setup c args).run s).state ∧
      ((resolveCache c (Uint64 h.Number / 30000) d cd).run s1).value = some k ∧
      c.GetVerificationIndices (Uint64 h.Number) (c.SealHash h) h.Nonce
        ((resolveCache c (Uint64 h.Number / 30000) d cd).run s1).state = (idxs, s3) ∧
      ((beforeLoop c args).run s).stdout = ((setup c args).run s).stdout ++
        (((resolveCache c (Uint64 h.Number / 30000) d cd).run s1).stdout ++
          (.text ("Proof length: " ++ toString k.ProofLength ++ "\n") ::
            rlpMessages (c.RLPHeader h))) ∧
      ((main c args).run s).stdout = ((beforeLoop c args).run s).stdout ++
        ((proofLoop c (Uint64 h.Number) k d idxs (initialOutput c (c.RLPHeader h).1 k)).run
          s3).stdout ++
        recordOutput ((proofLoop c (Uint64 h.Number) k d idxs
          (initialOutput c (c.RLPHeader h).1 k)).run s3).value ∧
      emitted ((main c args).run s).stdout =
        ((proofLoop c (Uint64 h.Number) k d idxs (initialOutput c (c.RLPHeader h).1 k)).run
          s3).value ∧
      loads ((main c args).run s).trace =
        loads ((resolveCache c (Uint64 h.Number / 30000) d cd).run s1).trace ∧
      rebuilds ((main c args).run s).trace =
        rebuilds ((resolveCache c (Uint64 h.Number / 30000) d cd).run s1).trace ∧
      requestedEpochs ((main c args).run s).trace =
        requestedEpochs ((resolveCache c (Uint64 h.Number / 30000) d cd).run s1).trace ∧
      fetchedHeaders ((main c args).run s).trace = [h] ∧
      fetchedIndices ((main c args).run s).trace = [idxs] ∧
      proofCalls ((main c args).run s).trace =
        proofCalls ((proofLoop c (Uint64 h.Number) k d idxs
          (initialOutput c (c.RLPHeader h).1 k)).run s3).trace ∧
      proofOks ((main c args).run s).trace =
        proofOks ((proofLoop c (Uint64 h.Number) k d idxs
          (initialOutput c (c.RLPHeader h).1 k)).run s3).trace) := by
  obtain ⟨sp, so, sl, sr, se, si⟩ := setup_readings c args s
  obtain ⟨sh1, sh2⟩ := setup_fetched c args s
  rcases main_shape c args s with ⟨hv, ht, _, hst, hem⟩ | ⟨h, d, cd, hv, hr, ht, _, hem⟩ |
      ⟨h, d, cd, k, s2, hv, hr, rfl, hb, ht, ho, hem⟩
  · left
    refine ⟨hv, ht, hst, hem, ?_, ?_, ?_, ?_, ?_, ?_⟩ <;> rw [ht]
    · exact sl
    · exact sr
    · exact se
    · exact sh2 hv
    · exact si
    · exact sp
  · right
    left
    obtain ⟨rp, rh, ri⟩ := resolveCache_other c (Uint64 h.Number / 30000) d cd
      ((setup c args).run s).state
    have hh := sh1 _ hv
    refine ⟨h, d, cd, _, hv, rfl, hr, hem, ?_, ?_, ?_, ?_, ?_, ?_⟩ <;> rw [ht]
    · rw [loads_append, sl, List.nil_append]
    · rw [rebuilds_append, sr, List.nil_append]
    · rw [requestedEpochs_append, se, List.nil_append]
    · rw [fetchedHeaders_append, hh, rh]
      rfl
    · rw [fetchedIndices_append, si, ri]
      rfl
    · rw [proofCalls_append, sp, rp]
      rfl
  · right
    right
    obtain ⟨rp, rh, ri⟩ := resolveCache_other c (Uint64 h.Number / 30000) d cd
      ((setup c args).run s).state
    have ro := resolveCache_proofOks c (Uint64 h.Number / 30000) d cd ((setup c args).run s).state
    have hh := sh1 _ hv
    obtain ⟨m1, m2, m3, m4, m5, m6, m7⟩ := middle_readings (Uint64 h.Number) (c.SealHash h)
      h.Nonce (c.GetVerificationIndices (Uint64 h.Number) (c.SealHash h) h.Nonce
        ((resolveCache c (Uint64 h.Number / 30000) d cd).run ((setup c args).run s).state).state).1
      h (c.RLPHeader h)
    obtain ⟨l1, l2, l3, l4, l5, _⟩ := loop_readings _ _ _ _ (proofLoop_events c (Uint64 h.Number)
      k d (c.GetVerificationIndices (Uint64 h.Number) (c.SealHash h) h.Nonce
        ((resolveCache c (Uint64 h.Number / 30000) d cd).run ((setup c args).run s).state).state).1
      (initialOutput c (c.RLPHeader h).1 k)
      (c.GetVerificationIndices (Uint64 h.Number) (c.SealHash h) h.Nonce
        ((resolveCache c (Uint64 h.Number / 30000) d cd).run ((setup c args).run s).state).state).2)
    refine ⟨h, d, cd, _, k, _, _, hv, rfl, hr, rfl, hb, ho, hem, ?_, ?_, ?_, ?_, ?_, ?_, ?_⟩ <;>
      rw [ht]
    · rw [loads_append, loads_append, loads_append, sl, m1, l1]
      simp
    · rw [rebuilds_append, rebuilds_append, rebuilds_append, sr, m2, l2]
      simp
    · rw [requestedEpochs_append, requestedEpochs_append, requestedEpochs_append, se, m3, l3]
      simp
    · rw [fetchedHeaders_append, fetchedHeaders_append, fetchedHeaders_append, hh, rh, m4, l4]
      rfl
    · rw [fetchedIndices_append, fetchedIndices_append, fetchedIndices_append, si, ri, m7, l5]
      rfl
    · rw [proofCalls_append, proofCalls_append, proofCalls_append, sp, rp, m5]
      rfl
    · rw [proofOks_append, proofOks_append, proofOks_append, so, ro, m6]
      rfl

/-- Everything about a run that emitted the record `o`: the stages succeeded, every
retrieval succeeded, and `o` is the initial record filled block by block. -/
theorem emitted_record {σ : Type} (c : Collaborators σ) (args : List String) (s : σ)
    (o : Output) (h : emitted ((main c args).run s).stdout = some o) :
    ∃ hd d cd s1 k idxs s3, ((setup c args).run s).value = some (hd, d, cd) ∧
      s1 = ((setup c args).run s).state ∧
      ((resolveCache c (Uint64 hd.Number / 30000) d cd).run s1).value = some k ∧
      c.GetVerificationIndices (Uint64 hd.Number) (c.SealHash hd) hd.Nonce
        ((resolveCache c (Uint64 hd.Number / 30000) d cd).run s1).state = (idxs, s3) ∧
      ((proofLoop c (Uint64 hd.Number) k d idxs (initialOutput c (c.RLPHeader hd).1 k)).run
          s3).value = some o ∧
      loads ((main c args).run s).trace =
        loads ((resolveCache c (Uint64 hd.Number / 30000) d cd).run s1).trace ∧
      rebuilds ((main c args).run s).trace =
        rebuilds ((resolveCache c (Uint64 hd.Number / 30000) d cd).run s1).trace ∧
      fetchedHeaders ((main c args).run s).trace = [hd] ∧
      fetchedIndices ((main c args).run s).trace = [idxs] ∧
      (proofOks ((main c args).run s).trace).map (fun r => r.1) = idxs ∧
      proofCalls ((main c args).run s).trace =
        (proofOks ((main c args).run s).trace).map (okCall (Uint64 hd.Number) k d) ∧
      o = { initialOutput c (c.RLPHeader hd).1 k with
            Elements := (proofOks ((main c args).run s).trace).flatMap
              (fun r => elementBlock c r.2.1),
            MerkleProofs := (proofOks ((main c args).run s).trace).flatMap
              (fun r => proofBlock c r.2.2) } := by
  rcases main_readings c args s with ⟨_, _, _, hem, _⟩ |
      ⟨hd, d, cd, s1, _, _, _, hem, _⟩ |
      ⟨hd, d, cd, s1, k, idxs, s3, hv, hs1, hr, hg, _, _, hem, hl, hrb, _, hh, hi, hpc, hpo⟩
  · rw [hem] at h
    cases h
  · rw [hem] at h
    cases h
  · rw [hem] at h
    obtain ⟨_, p2, p3, p4⟩ := proofLoop_some c (Uint64 hd.Number) k d idxs _ o s3 h
    refine ⟨hd, d, cd, s1, k, idxs, s3, hv, hs1, hr, hg, h, hl, hrb, hh, hi, ?_, ?_, ?_⟩
    · rw [hpo]
      exact p2
    · rw [hpc, hpo]
      exact p3
    · rw [hpo, p4]
      simp [initialOutput]

theorem flatMap_congr_mem {α β : Type} (l : List α) (f g : α → List β)
    (h : ∀ a ∈ l, f a = g a) : l.flatMap f = l.flatMap g := by
  induction l with
  | nil => rfl
  | cons a l ih =>
    simp only [List.flatMap_cons]
    rw [h a (by simp), ih (fun x hx => h x (by simp [hx]))]

theorem length_flatMap_const {α β : Type} (l : List α) (f : α → List β) (n : Nat)
    (h : ∀ a ∈ l, (f a).length = n) : (l.flatMap f).length = l.length * n := by
  induction l with
  | nil => simp
  | cons a l ih =>
    simp only [List.flatMap_cons, List.length_append, List.length_cons]
    rw [h a (by simp), ih (fun x hx => h x (by simp [hx]))]
    ring

/-- When every retrieval of a run that emitted `o` returned `f index`, the record's
two sequences are the per-index blocks of `f` in the order of the index list. -/
theorem record_blocks_of_pure {σ : Type} (c : Collaborators σ) (args : List String) (s : σ)
    (o : Output) (h : emitted ((main c args).run s).stdout = some o) (idxs : List Nat)
    (hi : fetchedIndices ((main c args).run s).trace = [idxs])
    (f : Nat → Bytes × List Bytes)
    (hf : ∀ r ∈ proofOks ((main c args).run s).trace, r.2 = f r.1) :
    o.Elements = idxs.flatMap (fun i => elementBlock c (f i).1) ∧
    o.MerkleProofs = idxs.flatMap (fun i => proofBlock c (f i).2) := by
  obtain ⟨hd, d, cd, s1, k, idxs2, s3, _, _, _, _, _, _, _, _, hi2, hm, _, ho⟩ :=
    emitted_record c args s o h
  rw [hi2] at hi
  cases hi
  rw [ho, ← hm]
  simp only [List.flatMap_map]
  constructor
  · apply flatMap_congr_mem
    intro r hr
    rw [hf r hr]
  · apply flatMap_congr_mem
    intro r hr
    rw [hf r hr]

theorem snoc_index {α : Type} (A : List α) (x a : α) (k : Nat) (P : α → Prop)
    (hA : ∀ y ∈ A, ¬ P y) (hk : (A ++ [x])[k]? = some a) (hp : P a) :
    k = A.length ∧ a = x := by
  by_cases hlt : k < A.length
  · rw [List.getElem?_append_left hlt] at hk
    exact absurd hp (hA a (List.getElem?_mem hk))
  · have hge : A.length ≤ k := Nat.le_of_not_lt hlt
    rw [List.getElem?_append_right hge] at hk
    cases hd : k - A.length with
    | zero =>
      rw [hd] at hk
      simp only [List.getElem?_cons_zero, Option.some.injEq] at hk
      exact ⟨by omega, hk.symm⟩
    | succ n =>
      rw [hd] at hk
      simp at hk

theorem beforeLoop_stdout_isText_of {σ : Type} (c : Collaborators σ) (args : List String)
    (s : σ) (h : Header) (d cd : String) (k : Cache)
    (hb : ((beforeLoop c args).run s).stdout = ((setup c args).run s).stdout ++
        (((resolveCache c (Uint64 h.Number / 30000) d cd).run ((setup c args).run s).state).stdout ++
          (.text ("Proof length: " ++ toString k.ProofLength ++ "\n") ::
            rlpMessages (c.RLPHeader h)))) :
    ∀ p ∈ ((beforeLoop c args).run s).stdout, p.isText := by
  rw [hb]
  intro p hp
  rcases List.mem_append.mp hp with hp | hp
  · exact setup_stdout_isText c args s p hp
  · rcases List.mem_append.mp hp with hp | hp
    · exact resolveCache_stdout_isText c _ d cd _ p hp
    · rcases List.mem_cons.mp hp with hp | hp
      · rw [hp]
        trivial
      · exact rlpMessages_isText _ p hp

theorem toInt_of_lt (x : Nat) (h : x < 2 ^ 63) : toInt x = (x : Int) := by
  unfold toInt
  have h1 : x % 2 ^ 64 = x := Nat.mod_eq_of_lt (by omega)
  rw [h1, if_pos h]

theorem toInt_epoch (n : Nat) : toInt (Uint64 n / 30000) = ((Uint64 n / 30000 : Nat) : Int) := by
  apply toInt_of_lt
  have : Uint64 n < 2 ^ 64 := Nat.mod_lt _ (by norm_num)
  omega

/-- Every epoch a run requests, from the cache or from the rebuild, is the low 64
bits of the fetched header's number divided by 30000; and one is requested. -/
theorem requestedEpochs_of_header {σ : Type} (c : Collaborators σ) (args : List String) (s : σ)
    (h : Header) (hf : h ∈ fetchedHeaders ((main c args).run s).trace) :
    requestedEpochs ((main c args).run s).trace ≠ [] ∧
    ∀ e ∈ requestedEpochs ((main c args).run s).trace,
      e = ((Uint64 h.Number / 30000 : Nat) : Int) := by
  rcases main_readings c args s with ⟨_, _, _, _, _, _, _, hh, _⟩ |
      ⟨hd, d, cd, s1, _, _, _, _, _, _, he, hh, _⟩ |
      ⟨hd, d, cd, s1, k, idxs, s3, _, _, _, _, _, _, _, _, _, he, hh, _⟩
  · rw [hh] at hf
    cases hf
  · rw [hh] at hf
    simp only [List.mem_singleton] at hf
    subst hf
    obtain ⟨r1, r2⟩ := resolveCache_epochs c (Uint64 h.Number / 30000) d cd s1
    rw [he]
    refine ⟨r1, fun e hm => ?_⟩
    rcases r2 e hm with h1 | h1
    · rw [h1, toInt_epoch]
    · exact h1
  · rw [hh] at hf
    simp only [List.mem_singleton] at hf
    subst hf
    obtain ⟨r1, r2⟩ := resolveCache_epochs c (Uint64 h.Number / 30000) d cd s1
    rw [he]
    refine ⟨r1, fun e hm => ?_⟩
    rcases r2 e hm with h1 | h1
    · rw [h1, toInt_epoch]
    · exact h1

theorem setup_args {σ : Type} (c : Collaborators σ) (args : List String) (s : σ) :
    ((args.length = 2 ∧ ∃ n, Atoi (args.getD 1 "") = .ok n) →
      ((setup c args).run s).trace ≠ []) ∧
    (¬ (args.length = 2 ∧ ∃ n, Atoi (args.getD 1 "") = .ok n) →
      ((setup c args).run s).trace = [] ∧ ((setup c args).run s).state = s ∧
      ((setup c args).run s).value = none) := by
  simp only [setup, getHomeDir, bind_eq, pure_eq, bind_bind]
  repeat' (first | split | simp only [bind_call, bind_printf, bind_pure, bind_stop, bind_logFatal])
  all_goals simp_all
  all_goals omega

/-- A run that obtained its verification indices and whose every `CalculateProof`
call succeeded emits a record. -/
theorem emitted_of_all_ok {σ : Type} (c : Collaborators σ) (args : List String) (s : σ)
    (idxs : List Nat) (hi : fetchedIndices ((main c args).run s).trace = [idxs])
    (hall : ∀ pc ∈ proofCalls ((main c args).run s).trace, ∃ r, pc.res = .ok r) :
    ∃ o, emitted ((main c args).run s).stdout = some o := by
  rcases main_readings c args s with ⟨_, _, _, _, _, _, _, _, hfi, _⟩ |
      ⟨hd, d, cd, s1, _, _, _, _, _, _, _, _, hfi, _⟩ |
      ⟨hd, d, cd, s1, k, idxs2, s3, _, _, _, _, _, _, hem, _, _, _, _, _, hpc, _⟩
  · rw [hfi] at hi
    cases hi
  · rw [hfi] at hi
    cases hi
  · cases hL : ((proofLoop c (Uint64 hd.Number) k d idxs2
        (initialOutput c (c.RLPHeader hd).1 k)).run s3).value with
    | some o => exact ⟨o, by rw [hem, hL]⟩
    | none =>
      obtain ⟨i, e, post, _, q2, _⟩ := proofLoop_none c (Uint64 hd.Number) k d idxs2 _ s3 hL
      rw [← hpc] at q2
      obtain ⟨r, hr⟩ := hall ⟨Uint64 hd.Number, i, k, d, .err e⟩ (by rw [q2]; simp)
      cases hr

/-! ### The block number asked for -/

theorem setup_request_parsed {σ : Type} (c : Collaborators σ) (args : List String) (s : σ) :
    ∀ n r, Event.HeaderByNumber n r ∈ ((setup c args).run s).trace →
      Atoi (args.getD 1 "") = .ok n := by
  simp only [setup, getHomeDir, bind_eq, pure_eq, bind_bind]
  repeat' (first | split | simp only [bind_call, bind_printf, bind_pure, bind_stop, bind_logFatal])
  all_goals simp_all

theorem resolveCache_no_request {σ : Type} (c : Collaborators σ) (ep : Nat)
    (d cd : String) (s : σ) :
    ∀ n r, Event.HeaderByNumber n r ∉ ((resolveCache c ep d cd).run s).trace := by
  simp only [resolveCache, bind_eq, pure_eq, bind_bind]
  repeat' (first | split | simp only [bind_call, bind_printf, bind_pure, bind_stop, bind_logFatal])
  all_goals simp_all

/-- Every header request of a run asks for the block number parsed from the
argument, which lies within the range of `int`. -/
theorem main_request_range {σ : Type} (c : Collaborators σ) (args : List String) (s : σ)
    (n : Int) (r : Res Header)
    (hm : Event.HeaderByNumber n r ∈ ((main c args).run s).trace) :
    Atoi (args.getD 1 "") = .ok n ∧ -(2 ^ 63) ≤ n ∧ n < 2 ^ 63 := by
  have hS : Event.HeaderByNumber n r ∈ ((setup c args).run s).trace := by
    rcases main_shape c args s with ⟨_, ht, _⟩ | ⟨h, d, cd, _, _, ht, _⟩ |
        ⟨h, d, cd, k, s2, _, _, _, _, ht, _⟩
    · rw [ht] at hm
      exact hm
    · rw [ht] at hm
      rcases List.mem_append.mp hm with hm | hm
      · exact hm
      · exact absurd hm (resolveCache_no_request c _ d cd _ n r)
    · rw [ht] at hm
      rcases List.mem_append.mp hm with hm | hm
      · rcases List.mem_append.mp hm with hm | hm
        · exact hm
        · rcases List.mem_append.mp hm with hm | hm
          · exact absurd hm (resolveCache_no_request c _ d cd _ n r)
          · simp at hm
      · obtain ⟨i, q, hq⟩ := proofLoop_events c _ _ _ _ _ _ _ hm
        cases hq
  have hA := setup_request_parsed c args s n r hS
  exact ⟨hA, ((Atoi_ok_iff _ n).mp hA).2⟩

/-! ### Replacing the header serializer -/

theorem proofLoop_RLPHeader {σ : Type} (c : Collaborators σ)
    (rlp : Header → Bytes × Option String) (b : Nat) (k : Cache) (d : String)
    (idxs : List Nat) : ∀ (out : Output),
    proofLoop { c with RLPHeader := rlp } b k d idxs out = proofLoop c b k d idxs out := by
  induction idxs with
  | nil => intro out; rfl
  | cons i rest ih =>
    intro out
    simp only [proofLoop, ih]

theorem proofLoop_setHeader {σ : Type} (c : Collaborators σ) (b : Nat) (k : Cache) (d : String)
    (x : String) (idxs : List Nat) : ∀ (out : Output) (s : σ),
    ((proofLoop c b k d idxs { out with HeaderRLP := x }).run s).value =
      (((proofLoop c b k d idxs out).run s).value).map (fun o => { o with HeaderRLP := x }) := by
  induction idxs with
  | nil => intro out s; simp [proofLoop, pure_eq]
  | cons i rest ih =>
    intro out s
    simp only [proofLoop, bind_eq, pure_eq, bind_bind, bind_call]
    split
    · simp
    · rename_i element proof _
      simp only [prepend_value]
      exact ih
        { out with
          Elements := (c.ToUint256Array element).foldl (fun acc e => acc ++ [EncodeBig e])
            out.Elements,
          MerkleProofs := ((c.HashesToBranchesArray proof).foldl
            (fun acc be => acc ++ [c.Big be]) []).foldl (fun acc e => acc ++ [EncodeBig e])
            out.MerkleProofs } _

/-! ## Claims -/

/-- C6: `hexutil.EncodeBig` round-trips on unsigned integers. Zero is `0x0`, a
positive value is `0x` followed by lowercase hexadecimal digits with no leading
zero; for every unsigned `n`, decoding `EncodeBig n` as a big-endian unsigned integer
yields `n`, re-encoding whatever the decoding yields reproduces the identical
string, and two unsigned integers with the same encoding are equal (no precision
is lost). -/
theorem C6_EncodeBig_roundtrip (n : Nat) :
    EncodeBig (0 : Int) = "0x0" ∧
    (0 < n → EncodeBig (n : Int) = "0x" ++ String.mk (Text16 n) ∧
      (∀ ch ∈ Text16 n, ch ∈ lowerHex) ∧ (Text16 n).head? ≠ some '0') ∧
    DecodeBig (EncodeBig (n : Int)) = some n ∧
    (∀ m : Nat, DecodeBig (EncodeBig (n : Int)) = some m →
      EncodeBig (m : Int) = EncodeBig (n : Int)) ∧
    (∀ m : Nat, EncodeBig (m : Int) = EncodeBig (n : Int) → m = n) := by
  refine ⟨by decide, ?_, DecodeBig_EncodeBig n, ?_, ?_⟩
  · intro h0
    exact ⟨EncodeBig_pos n h0, Text16_format n h0⟩
  · intro m hm
    rw [DecodeBig_EncodeBig n] at hm
    cases hm
    rfl
  · intro m hm
    have h1 := DecodeBig_EncodeBig m
    rw [hm, DecodeBig_EncodeBig n] at h1
    cases h1
    rfl

/-- C4: when the first `LoadCache` attempt of a run fails, the rebuild
(`CalculateDatasetMerkleRoot`) is invoked exactly once; if the rebuild succeeds,
`LoadCache` is invoked exactly one more time (two loads in total) and a failure of
that second load ends the run without a record; if the rebuild fails, `LoadCache`
is not invoked again and the run ends without a record. -/
theorem C4_rebuild_once_reload_once {σ : Type} (c : Collaborators σ) (args : List String)
    (s : σ) (e : String)
    (h : (loads ((main c args).run s).trace).head? = some (.err e)) :
    (rebuilds ((main c args).run s).trace).length = 1 ∧
    (∀ root, rebuilds ((main c args).run s).trace = [.ok root] →
      (loads ((main c args).run s).trace).length = 2 ∧
      (∀ e2, (loads ((main c args).run s).trace)[1]? = some (.err e2) →
        emitted ((main c args).run s).stdout = none)) ∧
    (∀ e1, rebuilds ((main c args).run s).trace = [.err e1] →
      (loads ((main c args).run s).trace).length = 1 ∧
      emitted ((main c args).run s).stdout = none) := by
  rcases main_readings c args s with ⟨_, _, _, _, hl, _⟩ |
      ⟨hd, d, cd, s1, _, _, hv, hem, hl, hr, _⟩ |
      ⟨hd, d, cd, s1, k, idxs, s3, _, _, hv, _, _, _, _, hl, hr, _⟩
  · rw [hl] at h
    simp at h
  · rw [hl] at h
    rw [hl, hr, hem]
    rcases resolveCache_shape c (Uint64 hd.Number / 30000) d cd s1 with
      ⟨k, h1, h2, h3⟩ | ⟨e1, e2, h1, h2, h3⟩ | ⟨e1, r, e3, h1, h2, h3⟩ | ⟨e1, r, k, h1, h2, h3⟩
    · rw [h3] at hv
      cases hv
    · simp [h1, h2]
    · simp [h1, h2]
    · rw [h3] at hv
      cases hv
  · rw [hl] at h
    rw [hl, hr]
    rcases resolveCache_shape c (Uint64 hd.Number / 30000) d cd s1 with
      ⟨k, h1, h2, h3⟩ | ⟨e1, e2, h1, h2, h3⟩ | ⟨e1, r, e3, h1, h2, h3⟩ | ⟨e1, r, k, h1, h2, h3⟩
    · rw [h1] at h
      simp at h
    · rw [h3] at hv
      cases hv
    · rw [h3] at hv
      cases hv
    · simp [h1, h2]

/-- C7: when the first `LoadCache` attempt of a run succeeds, the rebuild is never
invoked, `LoadCache` is invoked exactly once, and the loaded commitment is the one
used afterwards: an emitted record has `merkle_root` equal to the encoding of its
`RootHash` and `proof_length` equal to its `ProofLength`, and every `CalculateProof`
call receives that commitment. -/
theorem C7_cache_hit_used_unchanged {σ : Type} (c : Collaborators σ) (args : List String)
    (s : σ) (cache : Cache)
    (h : (loads ((main c args).run s).trace).head? = some (.ok cache)) :
    rebuilds ((main c args).run s).trace = [] ∧
    (loads ((main c args).run s).trace).length = 1 ∧
    (∀ o, emitted ((main c args).run s).stdout = some o →
      o.MerkleRoot = c.Hex cache.RootHash ∧ o.ProofLength = cache.ProofLength) ∧
    (∀ pc ∈ proofCalls ((main c args).run s).trace, pc.cache = cache) := by
  rcases main_readings c args s with ⟨_, _, _, _, hl, _⟩ |
      ⟨hd, d, cd, s1, _, _, hv, hem, hl, hr, _, _, _, hpc⟩ |
      ⟨hd, d, cd, s1, k, idxs, s3, _, _, hv, _, _, _, hem, hl, hr, _, _, _, hpc, _⟩
  · rw [hl] at h
    simp at h
  · rw [hl] at h
    rcases resolveCache_shape c (Uint64 hd.Number / 30000) d cd s1 with
      ⟨k, h1, h2, h3⟩ | ⟨e1, e2, h1, h2, h3⟩ | ⟨e1, r, e3, h1, h2, h3⟩ | ⟨e1, r, k, h1, h2, h3⟩
    · rw [h3] at hv
      cases hv
    · rw [h1] at h
      simp at h
    · rw [h1] at h
      simp at h
    · rw [h3] at hv
      cases hv
  · rw [hl] at h
    rcases resolveCache_shape c (Uint64 hd.Number / 30000) d cd s1 with
      ⟨k2, h1, h2, h3⟩ | ⟨e1, e2, h1, h2, h3⟩ | ⟨e1, r, e3, h1, h2, h3⟩ | ⟨e1, r, k2, h1, h2, h3⟩
    · rw [h3] at hv
      cases hv
      rw [h1] at h
      simp only [List.head?_cons, Option.some.injEq, Res.ok.injEq] at h
      subst h
      refine ⟨by rw [hr, h2], by rw [hl, h1]; rfl, ?_, ?_⟩
      · intro o ho
        rw [hem] at ho
        obtain ⟨_, _, _, p4⟩ := proofLoop_some c (Uint64 hd.Number) _ d idxs _ o s3 ho
        rw [p4]
        exact ⟨rfl, rfl⟩
      · intro pc hp
        rw [hpc] at hp
        obtain ⟨_, _, _, _, _, l6⟩ := loop_readings _ _ _ _ (proofLoop_events c (Uint64 hd.Number)
          _ d idxs (initialOutput c (c.RLPHeader hd).1 _) s3)
        exact (l6 pc hp).2.1
    · rw [h3] at hv
      cases hv
    · rw [h3] at hv
      cases hv
    · rw [h1] at h
      simp at h

/-- C1: in a run that obtained the verification indices `idxs` and whose every
`CalculateProof` call succeeded, a record is emitted; the calls were made for the
indices in their given order, `elements` is the concatenation in that order of
`EncodeBig` of each entry of `ToUint256Array(element_i)`, and `merkle_proofs` the
concatenation in that order of `EncodeBig` of each branch of
`HashesToBranchesArray(proof_i)`.  Consequently, when retrieval is a function `f` of
the index, both sequences are the per-index blocks in index order, and a run whose
index list is a permutation has the same blocks in the permuted order. -/
theorem C1_blocks_follow_index_order {σ : Type} (c : Collaborators σ) (args : List String)
    (s : σ) (idxs : List Nat)
    (hi : fetchedIndices ((main c args).run s).trace = [idxs])
    (hall : ∀ pc ∈ proofCalls ((main c args).run s).trace, ∃ r, pc.res = .ok r) :
    ∃ o, emitted ((main c args).run s).stdout = some o ∧
      (proofOks ((main c args).run s).trace).map (fun r => r.1) = idxs ∧
      (proofCalls ((main c args).run s).trace).map (fun pc => (pc.index, pc.res)) =
        (proofOks ((main c args).run s).trace).map (fun r => (r.1, Res.ok r.2)) ∧
      o.Elements = (proofOks ((main c args).run s).trace).flatMap
        (fun r => (c.ToUint256Array r.2.1).map EncodeBig) ∧
      o.MerkleProofs = (proofOks ((main c args).run s).trace).flatMap
        (fun r => (c.HashesToBranchesArray r.2.2).map (fun be => EncodeBig (c.Big be))) ∧
      ∀ f : Nat → Bytes × List Bytes,
        (∀ r ∈ proofOks ((main c args).run s).trace, r.2 = f r.1) →
        o.Elements = idxs.flatMap (fun i => (c.ToUint256Array (f i).1).map EncodeBig) ∧
        o.MerkleProofs = idxs.flatMap
          (fun i => (c.HashesToBranchesArray (f i).2).map (fun be => EncodeBig (c.Big be))) ∧
        ∀ (args2 : List String) (s2 : σ) (idxs2 : List Nat),
          fetchedIndices ((main c args2).run s2).trace = [idxs2] →
          (∀ pc ∈ proofCalls ((main c args2).run s2).trace, ∃ r, pc.res = .ok r) →
          idxs2.Perm idxs →
          (∀ r ∈ proofOks ((main c args2).run s2).trace, r.2 = f r.1) →
          ∃ o2, emitted ((main c args2).run s2).stdout = some o2 ∧
            o2.Elements = idxs2.flatMap (fun i => (c.ToUint256Array (f i).1).map EncodeBig) ∧
            o2.MerkleProofs = idxs2.flatMap
              (fun i => (c.HashesToBranchesArray (f i).2).map (fun be => EncodeBig (c.Big be))) := by
  obtain ⟨o, h⟩ := emitted_of_all_ok c args s idxs hi hall
  obtain ⟨hd, d, cd, s1, k, idxs1, s3, _, _, _, _, _, _, _, _, hi1, hm, hc, ho⟩ :=
    emitted_record c args s o h
  have hidx : idxs1 = idxs := by
    rw [hi1] at hi
    simpa using hi
  rw [hidx] at hm hi1
  refine ⟨o, h, hm, ?_, ?_, ?_, ?_⟩
  · rw [hc]
    simp [okCall, Function.comp_def]
  · rw [ho]
    rfl
  · rw [ho]
    rfl
  · intro f hf
    obtain ⟨b1, b2⟩ := record_blocks_of_pure c args s o h idxs hi1 f hf
    refine ⟨b1, b2, ?_⟩
    intro args2 s2 idxs2 hi2 hall2 _ hf2
    obtain ⟨o2, h2⟩ := emitted_of_all_ok c args2 s2 idxs2 hi2 hall2
    exact ⟨o2, h2, record_blocks_of_pure c args2 s2 o2 h2 idxs2 hi2 f hf2⟩

/-- C2: in a run that emits a record, where each inclusion proof returned has as many
sibling hashes as the `ProofLength` of the commitment and each sibling hash gives
one branch, `len(merkle_proofs) = len(indices) * proof_length`, where `proof_length`
is the `ProofLength` of the loaded commitment, written to the record. -/
theorem C2_merkle_proofs_length {σ : Type} (c : Collaborators σ) (args : List String)
    (s : σ) (o : Output) (h : emitted ((main c args).run s).stdout = some o)
    (hB : OneBranchPerHash c)
    (hP : ∀ pc ∈ proofCalls ((main c args).run s).trace, ∀ r, pc.res = .ok r →
      r.2.length = pc.cache.ProofLength) :
    ∃ idxs k, fetchedIndices ((main c args).run s).trace = [idxs] ∧
      (loads ((main c args).run s).trace).getLast? = some (.ok k) ∧
      o.ProofLength = k.ProofLength ∧
      o.MerkleProofs.length = idxs.length * o.ProofLength := by
  obtain ⟨hd, d, cd, s1, k, idxs, s3, _, _, hv, _, _, hl, _, _, hi, hm, hc, ho⟩ :=
    emitted_record c args s o h
  refine ⟨idxs, k, hi, ?_, by rw [ho]; rfl, ?_⟩
  · rw [hl]
    rcases resolveCache_shape c (Uint64 hd.Number / 30000) d cd s1 with
      ⟨k2, h1, h2, h3⟩ | ⟨e1, e2, h1, h2, h3⟩ | ⟨e1, r, e3, h1, h2, h3⟩ | ⟨e1, r, k2, h1, h2, h3⟩
    · rw [h3] at hv
      cases hv
      rw [h1]
      rfl
    · rw [h3] at hv
      cases hv
    · rw [h3] at hv
      cases hv
    · rw [h3] at hv
      cases hv
      rw [h1]
      rfl
  · have hlen : (proofOks ((main c args).run s).trace).length = idxs.length := by
      rw [← hm, List.length_map]
    rw [ho, ← hlen]
    apply length_flatMap_const
    intro r hr
    have hmem : okCall (Uint64 hd.Number) k d r ∈ proofCalls ((main c args).run s).trace := by
      rw [hc]
      exact List.mem_map_of_mem _ hr
    have := hP _ hmem r.2 rfl
    simp only [proofBlock, List.length_map, hB r.2.2, initialOutput]
    exact this

/-- C3: in a run that emits a record, where `ToUint256Array` returns `w` integers for
each element retrieved, `len(elements) = len(indices) * w`; with zero indices,
`elements` is the empty sequence. -/
theorem C3_elements_length {σ : Type} (c : Collaborators σ) (args : List String)
    (s : σ) (o : Output) (w : Nat) (h : emitted ((main c args).run s).stdout = some o)
    (hW : ∀ r ∈ proofOks ((main c args).run s).trace, (c.ToUint256Array r.2.1).length = w) :
    ∃ idxs, fetchedIndices ((main c args).run s).trace = [idxs] ∧
      o.Elements.length = idxs.length * w ∧
      (idxs = [] → o.Elements = []) := by
  obtain ⟨hd, d, cd, s1, k, idxs, s3, _, _, hv, _, _, hl, _, _, hi, hm, hc, ho⟩ :=
    emitted_record c args s o h
  have hlen : (proofOks ((main c args).run s).trace).length = idxs.length := by
    rw [← hm, List.length_map]
  refine ⟨idxs, hi, ?_, ?_⟩
  · rw [ho, ← hlen]
    apply length_flatMap_const
    intro r hr
    simp only [elementBlock, List.length_map]
    exact hW r hr
  · intro hnil
    rw [hnil] at hlen
    have hoks : proofOks ((main c args).run s).trace = [] := List.length_eq_zero.mp hlen
    rw [ho, hoks]
    rfl

/-- C5: when the `CalculateProof` call at position `k` of a run fails (with error `e`,
for index `pc.index`), every call before it succeeded, the run emits no record and
prints nothing from the loop but the failure message naming that index (its output
is what `main` printed before the loop, then that message), and no `CalculateProof`
call is made after position `k`: the calls are exactly those for the first `k + 1`
verification indices. -/
theorem C5_failure_aborts_without_record {σ : Type} (c : Collaborators σ)
    (args : List String) (s : σ) (k : Nat) (pc : ProofCall) (e : String)
    (hk : (proofCalls ((main c args).run s).trace)[k]? = some pc) (he : pc.res = .err e) :
    emitted ((main c args).run s).stdout = none ∧
    (∀ o, Printed.json o ∉ ((main c args).run s).stdout) ∧
    ((main c args).run s).stdout =
      ((beforeLoop c args).run s).stdout ++ [.text (failureMessage pc.index e)] ∧
    (proofCalls ((main c args).run s).trace).length = k + 1 ∧
    (∀ pj ∈ (proofCalls ((main c args).run s).trace).take k, ∃ r, pj.res = .ok r) ∧
    ∃ idxs, fetchedIndices ((main c args).run s).trace = [idxs] ∧
      idxs[k]? = some pc.index ∧
      (proofCalls ((main c args).run s).trace).map (fun p => p.index) = idxs.take (k + 1) := by
  rcases main_readings c args s with ⟨_, _, _, _, _, _, _, _, _, hpc⟩ |
      ⟨hd, d, cd, s1, _, _, _, _, _, _, _, _, _, hpc⟩ |
      ⟨hd, d, cd, s1, kk, idxs, s3, _, hs1, _, _, hb, hout, hem, _, _, _, _, hi, hpc, hpo⟩
  · rw [hpc] at hk
    simp at hk
  · rw [hpc] at hk
    simp at hk
  · subst hs1
    have htxt := beforeLoop_stdout_isText_of c args s hd d cd kk hb
    cases hL : ((proofLoop c (Uint64 hd.Number) kk d idxs
        (initialOutput c (c.RLPHeader hd).1 kk)).run s3).value with
    | some o =>
      obtain ⟨_, _, p3, _⟩ := proofLoop_some c (Uint64 hd.Number) kk d idxs _ o s3 hL
      rw [hpc, p3] at hk
      obtain ⟨r, _, hr⟩ := List.mem_map.mp (List.getElem?_mem hk)
      rw [← hr] at he
      simp [okCall] at he
    | none =>
      obtain ⟨i, e2, post, q1, q2, q3⟩ := proofLoop_none c (Uint64 hd.Number) kk d idxs _ s3 hL
      rw [← hpo] at q1 q2
      rw [← hpc] at q2
      rw [q2] at hk
      have hoks : ∀ y ∈ (proofOks ((main c args).run s).trace).map (okCall (Uint64 hd.Number) kk d),
          ¬ (y.res = .err e) := by
        intro y hy
        obtain ⟨r, _, hr⟩ := List.mem_map.mp hy
        rw [← hr]
        simp [okCall]
      obtain ⟨hkl, hpceq⟩ := snoc_index _ _ pc k (fun y => y.res = .err e) hoks hk he
      rw [List.length_map] at hkl
      have hie : i = pc.index ∧ e2 = e := by
        rw [hpceq] at he
        simp only [Res.err.injEq] at he
        rw [hpceq]
        exact ⟨rfl, he⟩
      obtain ⟨rfl, rfl⟩ := hie
      rw [hL] at hem hout
      rw [q3] at hout
      refine ⟨hem, ?_, by simpa [recordOutput] using hout, ?_, ?_, idxs, hi, ?_, ?_⟩
      · intro o ho
        rw [hout] at ho
        simp only [recordOutput, List.append_nil, List.mem_append, List.mem_singleton] at ho
        rcases ho with ho | ho
        · exact htxt _ ho
        · cases ho
      · rw [q2]
        simp [hkl]
      · intro pj hpj
        rw [q2, hkl] at hpj
        have hlen : ((proofOks ((main c args).run s).trace).map
            (okCall (Uint64 hd.Number) kk d)).length =
            (proofOks ((main c args).run s).trace).length := List.length_map _ _
        rw [List.take_left' hlen] at hpj
        obtain ⟨r, _, hr⟩ := List.mem_map.mp hpj
        exact ⟨r.2, by rw [← hr]; rfl⟩
      · rw [q1, hkl]
        have hlen : ((proofOks ((main c args).run s).trace).map (fun r => r.1)).length =
            (proofOks ((main c args).run s).trace).length := List.length_map _ _
        rw [List.getElem?_append_right (Nat.le_of_eq hlen), hlen]
        simp
      · rw [q2, hkl]
        have hsplit : idxs = ((proofOks ((main c args).run s).trace).map (fun r => r.1) ++
            [pc.index]) ++ post := by
          rw [q1]
          simp
        have hlen : ((proofOks ((main c args).run s).trace).map (fun r => r.1) ++
            [pc.index]).length = (proofOks ((main c args).run s).trace).length + 1 := by
          simp
        rw [hsplit, List.take_left' hlen]
        simp [okCall, Function.comp_def]

/-- C8: for every fetched header whose block number `n` is a valid one (it fits the
`uint64` the code reads it into, `n < 2^64`), the epoch passed to `LoadCache` and to
`CalculateDatasetMerkleRoot` is `floor(n / 30000)` (at least one such request is
made), and for two runs whose block numbers have the same `floor(n / 30000)` the
requested epochs are identical.  Every block number the run asks the header source
for lies in `[-2^63, 2^63 - 1]`, so a source that returns the block it was asked for
only yields such headers. -/
theorem C8_epoch_is_number_div_30000 {σ : Type} (c : Collaborators σ) (args : List String)
    (s : σ) (h : Header) (hf : h ∈ fetchedHeaders ((main c args).run s).trace)
    (hlt : h.Number < 2 ^ 64) :
    requestedEpochs ((main c args).run s).trace ≠ [] ∧
    (∀ e ∈ requestedEpochs ((main c args).run s).trace, e = ((h.Number / 30000 : Nat) : Int)) ∧
    (∀ (c2 : Collaborators σ) (args2 : List String) (s2 : σ) (h2 : Header),
      h2 ∈ fetchedHeaders ((main c2 args2).run s2).trace → h2.Number < 2 ^ 64 →
      h.Number / 30000 = h2.Number / 30000 →
      ∀ e ∈ requestedEpochs ((main c args).run s).trace,
        ∀ e2 ∈ requestedEpochs ((main c2 args2).run s2).trace, e = e2) ∧
    (∀ (n : Int) (r : Res Header),
      Event.HeaderByNumber n r ∈ ((main c args).run s).trace → -(2 ^ 63) ≤ n ∧ n < 2 ^ 63) := by
  obtain ⟨h1, h2⟩ := requestedEpochs_of_header c args s h hf
  have hu : Uint64 h.Number = h.Number := Nat.mod_eq_of_lt hlt
  rw [hu] at h2
  refine ⟨h1, h2, ?_, ?_⟩
  · intro c2 args2 s2 hd2 hf2 hlt2 heq e he e2 he2
    obtain ⟨_, h4⟩ := requestedEpochs_of_header c2 args2 s2 hd2 hf2
    have hu2 : Uint64 hd2.Number = hd2.Number := Nat.mod_eq_of_lt hlt2
    rw [hu2] at h4
    rw [h2 e he, h4 e2 he2, heq]
  · intro n r hm
    exact (main_request_range c args s n r hm).2

/-- Witness for C8: block number `300000` requests epoch `10`. -/
theorem C8_epoch_is_number_div_30000_witness :
    (⟨300000, 7, []⟩ : Header) ∈ fetchedHeaders ((main (fake ⟨300000, [5, 9], none, true, true, 3,
      false⟩) ["relayer", "300000"]).run ⟨false⟩).trace ∧
    requestedEpochs ((main (fake ⟨300000, [5, 9], none, true, true, 3, false⟩)
      ["relayer", "300000"]).run ⟨false⟩).trace = [10, 10, 10] ∧
    ∀ e ∈ requestedEpochs ((main (fake ⟨300000, [5, 9], none, true, true, 3, false⟩)
      ["relayer", "300000"]).run ⟨false⟩).trace, e = ((300000 / 30000 : Nat) : Int) :=
  ⟨by decide, by decide,
    (C8_epoch_is_number_div_30000 (fake ⟨300000, [5, 9], none, true, true, 3, false⟩)
      ["relayer", "300000"] ⟨false⟩ ⟨300000, 7, []⟩ (by decide) (by decide)).2.1⟩

/-- C10 as stated fails: the argument `-5` is not a non-negative integer, yet
`strconv.Atoi` accepts it and the run goes on to create the directories and fetch
the header (for block `-5`); and the non-negative integer `2^63` is rejected (out
of the range of `int`), with no collaborator invoked. -/
theorem C10_counterexample_negative_argument :
    Atoi "-5" = .ok (-5) ∧
    Atoi "9223372036854775808" = .error .rangeErr ∧
    ((main (fake ⟨300000, [], none, true, true, 0, false⟩)
      ["relayer", "9223372036854775808"]).run ⟨false⟩).trace = [] ∧
    (((main (fake ⟨300000, [], none, true, true, 0, false⟩) ["relayer", "-5"]).run
      ⟨false⟩).trace).take 5 =
      [Event.userCurrent (.ok "/home/u"), Event.MkdirAll "/home/u/.ethash" 493 none,
       Event.userCurrent (.ok "/home/u"), Event.MkdirAll "/home/u/.ethashproof" 493 none,
       Event.HeaderByNumber (-5) (.ok ⟨300000, 7, []⟩)] := by
  decide

/-- C10 (amended): the run proceeds past argument checking (makes any collaborator
call) if and only if exactly one positional argument is given and it is a decimal
integer literal, with an optional sign, whose value lies in `[-2^63, 2^63 - 1]`
(what `strconv.Atoi` accepts, negative integers included); otherwise no collaborator
is invoked, the world is unchanged and no record is emitted. -/
theorem C10_proceeds_iff_one_integer_argument {σ : Type} (c : Collaborators σ)
    (args : List String) (s : σ) :
    (((main c args).run s).trace ≠ [] ↔
      (args.length = 2 ∧
        ∃ n : Int, IsDecimalLiteral (args.getD 1 "") n ∧ -(2 ^ 63) ≤ n ∧ n < 2 ^ 63)) ∧
    (¬ (args.length = 2 ∧
        ∃ n : Int, IsDecimalLiteral (args.getD 1 "") n ∧ -(2 ^ 63) ≤ n ∧ n < 2 ^ 63) →
      ((main c args).run s).trace = [] ∧ ((main c args).run s).state = s ∧
      emitted ((main c args).run s).stdout = none) := by
  have hiff : (args.length = 2 ∧
        ∃ n : Int, IsDecimalLiteral (args.getD 1 "") n ∧ -(2 ^ 63) ≤ n ∧ n < 2 ^ 63) ↔
      (args.length = 2 ∧ ∃ n, Atoi (args.getD 1 "") = .ok n) := by
    constructor
    · rintro ⟨hl, n, hn⟩
      exact ⟨hl, n, (Atoi_ok_iff _ n).mpr hn⟩
    · rintro ⟨hl, n, hn⟩
      exact ⟨hl, n, (Atoi_ok_iff _ n).mp hn⟩
  rw [hiff]
  obtain ⟨a1, a2⟩ := setup_args c args s
  have key : ¬ (args.length = 2 ∧ ∃ n, Atoi (args.getD 1 "") = .ok n) →
      ((main c args).run s).trace = [] ∧ ((main c args).run s).state = s ∧
      emitted ((main c args).run s).stdout = none := by
    intro hn
    obtain ⟨t1, t2, t3⟩ := a2 hn
    rcases main_readings c args s with ⟨_, ht, hs, hem, _⟩ |
        ⟨hd, d, cd, s1, hv, _⟩ | ⟨hd, d, cd, s1, k, idxs, s3, hv, _⟩
    · exact ⟨by rw [ht, t1], by rw [hs, t2], hem⟩
    · rw [t3] at hv
      cases hv
    · rw [t3] at hv
      cases hv
  refine ⟨⟨?_, ?_⟩, key⟩
  · intro hne
    by_contra hn
    exact hne (key hn).1
  · intro hc
    have hS := a1 hc
    rcases main_readings c args s with ⟨_, ht, _⟩ |
        ⟨hd, d, cd, s1, _, _, _, _, _, _, _, hh, _⟩ |
        ⟨hd, d, cd, s1, k, idxs, s3, _, _, _, _, _, _, _, _, _, _, hh, _⟩
    · rw [ht]
      exact hS
    · intro h0
      rw [h0] at hh
      cases hh
    · intro h0
      rw [h0] at hh
      cases hh

/-- C9: take a run that emits a record `o`, and replace the header serializer by one
that fails on the fetched header (handing back the empty byte string and an error
`e`).  The run does not abort: it reports the failure and still emits a record,
whose `header_rlp` is `0x`, the hex-with-prefix encoding of the empty byte string,
and whose `merkle_root`, `proof_length`, `elements` and `merkle_proofs` are those
of `o`. -/
theorem C9_serializer_failure_degrades_header {σ : Type} (c : Collaborators σ)
    (rlpFail : Header → Bytes × Option String) (args : List String) (s : σ) (o : Output)
    (hd : Header) (e : String)
    (h : emitted ((main c args).run s).stdout = some o)
    (hh : hd ∈ fetchedHeaders ((main c args).run s).trace)
    (hfail : FailsEmpty (rlpFail hd) e) :
    emitted ((main { c with RLPHeader := rlpFail } args).run s).stdout =
      some { o with HeaderRLP := "0x" } ∧
    hexutilEncode [] = "0x" ∧
    Printed.text ("Can't rlp encode the header: " ++ e ++ "\n") ∈
      ((main { c with RLPHeader := rlpFail } args).run s).stdout := by
  obtain ⟨hd1, d, cd, s1, k, idxs, s3, hv, hs1, hr, hg, hL, _, _, hfh, _⟩ :=
    emitted_record c args s o h
  rw [hfh] at hh
  simp only [List.mem_singleton] at hh
  subst hh
  subst hs1
  unfold FailsEmpty at hfail
  rcases main_readings { c with RLPHeader := rlpFail } args s with ⟨hv2, _⟩ |
      ⟨hd2, d2, cd2, s2, hv2, hs2, hr2, _⟩ |
      ⟨hd2, d2, cd2, s2, k2, idxs2, s4, hv2, hs2, hr2, hg2, hb2, hout2, hem2, _⟩
  · change ((setup c args).run s).value = none at hv2
    rw [hv] at hv2
    cases hv2
  · change ((setup c args).run s).value = some (hd2, d2, cd2) at hv2
    rw [hv] at hv2
    cases hv2
    subst hs2
    change ((resolveCache c (Uint64 hd.Number / 30000) d cd).run
      ((setup c args).run s).state).value = none at hr2
    rw [hr] at hr2
    cases hr2
  · change ((setup c args).run s).value = some (hd2, d2, cd2) at hv2
    rw [hv] at hv2
    cases hv2
    subst hs2
    change ((resolveCache c (Uint64 hd.Number / 30000) d cd).run
      ((setup c args).run s).state).value = some k2 at hr2
    rw [hr] at hr2
    cases hr2
    change c.GetVerificationIndices (Uint64 hd.Number) (c.SealHash hd) hd.Nonce
      ((resolveCache c (Uint64 hd.Number / 30000) d cd).run ((setup c args).run s).state).state =
        (idxs2, s4) at hg2
    rw [hg] at hg2
    cases hg2
    refine ⟨?_, rfl, ?_⟩
    · rw [hem2, proofLoop_RLPHeader]
      have hinit : initialOutput { c with RLPHeader := rlpFail }
          (Collaborators.RLPHeader { c with RLPHeader := rlpFail } hd).1 k =
          { initialOutput c (c.RLPHeader hd).1 k with HeaderRLP := "0x" } := by
        change initialOutput { c with RLPHeader := rlpFail } (rlpFail hd).1 k = _
        rw [hfail]
        rfl
      rw [hinit, proofLoop_setHeader, hL]
      rfl
    · rw [hout2, hb2]
      have hmsg : rlpMessages (Collaborators.RLPHeader { c with RLPHeader := rlpFail } hd) =
          [.text ("Can't rlp encode the header: " ++ e ++ "\n")] := by
        change rlpMessages (rlpFail hd) = _
        rw [hfail]
        rfl
      rw [hmsg]
      simp

/-! ## Witnesses -/

/-- Witness for C1 on the small fake: the indices are `[5, 9]`, both retrievals
succeed, and the run emits `smallRecord`, whose `elements` are the blocks of `5` and `9`
in that order. -/
theorem C1_blocks_follow_index_order_witness :
    fetchedIndices ((main (fake smallFake) ["relayer", "300000"]).run ⟨false⟩).trace = [[5, 9]] ∧
    emitted ((main (fake smallFake) ["relayer", "300000"]).run ⟨false⟩).stdout =
      some smallRecord ∧
    ∃ o, emitted ((main (fake smallFake) ["relayer", "300000"]).run ⟨false⟩).stdout = some o ∧
      (proofOks ((main (fake smallFake) ["relayer", "300000"]).run ⟨false⟩).trace).map
        (fun r => r.1) = [5, 9] ∧
      o.Elements =
        (proofOks ((main (fake smallFake) ["relayer", "300000"]).run ⟨false⟩).trace).flatMap
          (fun r => ((fake smallFake).ToUint256Array r.2.1).map EncodeBig) :=
  ⟨by decide, by decide,
    match C1_blocks_follow_index_order (fake smallFake) ["relayer", "300000"] ⟨false⟩ [5, 9]
      (by decide)
      (by
        intro pc hpc
        have hall : ∀ q ∈ proofCalls ((main (fake smallFake) ["relayer", "300000"]).run
            ⟨false⟩).trace,
            q.res = .ok ([q.index % 256, 1, 2, 3], List.replicate 3 [q.index % 256 + 1]) := by
          decide
        exact ⟨_, hall pc hpc⟩) with
    | ⟨o, h0, h2, _, h4, _⟩ => ⟨o, h0, h2, h4⟩⟩

/-- Witness for C2 on the spec's example: two indices, 24 sibling hashes each,
`ProofLength = 24`, so `merkle_proofs` has length 48. -/
theorem C2_merkle_proofs_length_witness :
    emitted ((main (fake exampleFake) ["relayer", "300000"]).run ⟨false⟩).stdout =
      some exampleRecord ∧
    exampleRecord.MerkleProofs.length = 48 ∧ exampleRecord.ProofLength = 24 ∧
    ∃ idxs k, fetchedIndices ((main (fake exampleFake) ["relayer", "300000"]).run
        ⟨false⟩).trace = [idxs] ∧
      (loads ((main (fake exampleFake) ["relayer", "300000"]).run ⟨false⟩).trace).getLast? =
        some (.ok k) ∧
      exampleRecord.ProofLength = k.ProofLength ∧
      exampleRecord.MerkleProofs.length = idxs.length * exampleRecord.ProofLength :=
  ⟨by decide, by decide, by decide,
    C2_merkle_proofs_length (fake exampleFake) ["relayer", "300000"] ⟨false⟩ exampleRecord
      (by decide) (fun _ => rfl)
      (by
        intro pc hpc r hr
        have hall : ∀ q ∈ proofCalls ((main (fake exampleFake) ["relayer", "300000"]).run
            ⟨false⟩).trace,
            q.res = .ok ([q.index % 256, 1, 2, 3], List.replicate 24 [q.index % 256 + 1]) ∧
              q.cache.ProofLength = 24 := by decide
        obtain ⟨hq, hk⟩ := hall pc hpc
        rw [hq] at hr
        cases hr
        rw [hk]
        simp)⟩

/-- Witness for C3 on the spec's example: two indices, four integers per element, so
`elements` has length 8. -/
theorem C3_elements_length_witness :
    emitted ((main (fake exampleFake) ["relayer", "300000"]).run ⟨false⟩).stdout =
      some exampleRecord ∧
    exampleRecord.Elements.length = 8 ∧
    ∃ idxs, fetchedIndices ((main (fake exampleFake) ["relayer", "300000"]).run ⟨false⟩).trace =
        [idxs] ∧
      exampleRecord.Elements.length = idxs.length * 4 ∧
      (idxs = [] → exampleRecord.Elements = []) :=
  ⟨by decide, by decide,
    C3_elements_length (fake exampleFake) ["relayer", "300000"] ⟨false⟩ exampleRecord 4
      (by decide) (by decide)⟩

/-- Witness for C4: with nothing persisted the first load fails, and the run rebuilds
once and loads twice. -/
theorem C4_rebuild_once_reload_once_witness :
    (loads ((main (fake smallFake) ["relayer", "300000"]).run ⟨false⟩).trace).head? =
      some (.err "no cache") ∧
    (rebuilds ((main (fake smallFake) ["relayer", "300000"]).run ⟨false⟩).trace).length = 1 ∧
    (loads ((main (fake smallFake) ["relayer", "300000"]).run ⟨false⟩).trace).length = 2 :=
  ⟨by decide,
    (C4_rebuild_once_reload_once (fake smallFake) ["relayer", "300000"] ⟨false⟩ "no cache"
      (by decide)).1,
    ((C4_rebuild_once_reload_once (fake smallFake) ["relayer", "300000"] ⟨false⟩ "no cache"
      (by decide)).2.1 (fakeCache smallFake).RootHash (by decide)).1⟩

/-- Witness for C5: retrieval fails for the third of five indices; no record, three
calls in all. -/
theorem C5_failure_aborts_without_record_witness :
    (proofCalls ((main (fake failingFake) ["relayer", "300000"]).run ⟨true⟩).trace)[2]? =
      some ⟨300000, 13, fakeCache failingFake, "/home/u/.ethash", .err "boom"⟩ ∧
    emitted ((main (fake failingFake) ["relayer", "300000"]).run ⟨true⟩).stdout = none ∧
    (proofCalls ((main (fake failingFake) ["relayer", "300000"]).run ⟨true⟩).trace).length = 3 :=
  ⟨by decide,
    (C5_failure_aborts_without_record (fake failingFake) ["relayer", "300000"] ⟨true⟩ 2
      ⟨300000, 13, fakeCache failingFake, "/home/u/.ethash", .err "boom"⟩ "boom"
      (by decide) rfl).1,
    (C5_failure_aborts_without_record (fake failingFake) ["relayer", "300000"] ⟨true⟩ 2
      ⟨300000, 13, fakeCache failingFake, "/home/u/.ethash", .err "boom"⟩ "boom"
      (by decide) rfl).2.2.2.1⟩

/-- Witness for C7: with the commitment persisted the first load succeeds and no
rebuild happens. -/
theorem C7_cache_hit_used_unchanged_witness :
    (loads ((main (fake smallFake) ["relayer", "300000"]).run ⟨true⟩).trace).head? =
      some (.ok (fakeCache smallFake)) ∧
    rebuilds ((main (fake smallFake) ["relayer", "300000"]).run ⟨true⟩).trace = [] ∧
    (loads ((main (fake smallFake) ["relayer", "300000"]).run ⟨true⟩).trace).length = 1 :=
  ⟨by decide,
    (C7_cache_hit_used_unchanged (fake smallFake) ["relayer", "300000"] ⟨true⟩
      (fakeCache smallFake) (by decide)).1,
    (C7_cache_hit_used_unchanged (fake smallFake) ["relayer", "300000"] ⟨true⟩
      (fakeCache smallFake) (by decide)).2.1⟩

/-- Witness for C9: the small run with a serializer that fails with the empty byte
string still emits the record, with `header_rlp = 0x`. -/
theorem C9_serializer_failure_degrades_header_witness :
    emitted ((main (fake smallFake) ["relayer", "300000"]).run ⟨true⟩).stdout =
      some smallRecord ∧
    emitted ((main { fake smallFake with RLPHeader := fun _ => ([], some "rlp") }
      ["relayer", "300000"]).run ⟨true⟩).stdout = some { smallRecord with HeaderRLP := "0x" } :=
  ⟨by decide,
    (C9_serializer_failure_degrades_header (fake smallFake) (fun _ => ([], some "rlp"))
      ["relayer", "300000"] ⟨true⟩ smallRecord ⟨300000, 7, []⟩ "rlp" (by decide) (by decide)
      rfl).1⟩

/-- Witness for C6: `255` is encoded as `0xff` and decoded back to `255`. -/
theorem C6_EncodeBig_roundtrip_witness :
    EncodeBig (255 : Int) = "0xff" ∧ DecodeBig (EncodeBig ((255 : Nat) : Int)) = some 255 :=
  ⟨by decide, (C6_EncodeBig_roundtrip 255).2.2.1⟩

/-- Witness for C10 (amended): with the single argument `300000` the run makes
collaborator calls; with no argument it makes none and emits nothing. -/
theorem C10_proceeds_iff_one_integer_argument_witness :
    ((main (fake smallFake) ["relayer", "300000"]).run ⟨false⟩).trace ≠ [] ∧
    ((main (fake smallFake) ["relayer"]).run ⟨false⟩).trace = [] ∧
    emitted ((main (fake smallFake) ["relayer"]).run ⟨false⟩).stdout = none :=
  ⟨(C10_proceeds_iff_one_integer_argument (fake smallFake) ["relayer", "300000"] ⟨false⟩).1.mpr
      ⟨rfl, 300000, ⟨"300000".data, by decide, by decide, Or.inl ⟨Or.inl rfl, by decide⟩⟩,
        by decide, by decide⟩,
    ((C10_proceeds_iff_one_integer_argument (fake smallFake) ["relayer"] ⟨false⟩).2
      (fun h => absurd h.1 (by decide))).1,
    ((C10_proceeds_iff_one_integer_argument (fake smallFake) ["relayer"] ⟨false⟩).2
      (fun h => absurd h.1 (by decide))).2.2⟩

end Relayer
